import Mathlib

/-!
vol2heightfield: the directional height-field extraction.

A shallow embedding of `main` of `src/converters/vol2heightfield.cpp`: the clamp of
`maxScan`, the initialisation of the raster, the scan loop with its first-hit test
and the optional background fill.  Library types the tool instantiates (points,
domains, image containers, the plane embedder) are modelled by the operations the
tool calls on them.
-/

namespace Vol2HeightField

/-! ## Machine integers -/

/-- The maximum of the output pixel type: `std::numeric_limits<unsigned char>::max()`. -/
def valueMax : Nat := 255

/-- Conversion of an `unsigned int` to the `unsigned char` pixel type, as done by the
argument of `Image2D::setValue`. -/
def toValue (n : Nat) : Nat := n % 256

/-- Subtraction of two `unsigned int` (32 bits), as in `maxScan-k`. -/
def uintSub (a b : Nat) : Nat := (a % 4294967296 + 4294967296 - b % 4294967296) % 4294967296

/-- Conversion of an `unsigned int` to the 32-bit signed coordinate of a `Z2i::Point`. -/
def toCoordinate (n : Nat) : Int :=
  if n % 4294967296 < 2147483648 then ((n % 4294967296 : Nat) : Int)
  else ((n % 4294967296 : Nat) : Int) - 4294967296

/-! ## Points, domains, images -/

/-- A point of `Z2i::Point`: a pixel coordinate. -/
structure Point2D where
  x : Int
  y : Int
deriving DecidableEq

/-- A point of `Z3i::Point`: a voxel coordinate. -/
structure Point3D where
  x : Int
  y : Int
  z : Int
deriving DecidableEq

/-- A `Z2i::Domain` built from its two corners; a DGtal rectangular domain contains
both corners. -/
structure Domain2D where
  lowerBound : Point2D
  upperBound : Point2D

/-- A `Z3i::Domain` built from its two corners, both contained. -/
structure Domain3D where
  lowerBound : Point3D
  upperBound : Point3D

/-- Membership test of a 2D domain. -/
def Domain2D.isInside (d : Domain2D) (p : Point2D) : Bool :=
  decide (d.lowerBound.x ≤ p.x) && decide (p.x ≤ d.upperBound.x) &&
  decide (d.lowerBound.y ≤ p.y) && decide (p.y ≤ d.upperBound.y)

/-- Membership test of a 3D domain. -/
def Domain3D.isInside (d : Domain3D) (p : Point3D) : Bool :=
  decide (d.lowerBound.x ≤ p.x) && decide (p.x ≤ d.upperBound.x) &&
  decide (d.lowerBound.y ≤ p.y) && decide (p.y ≤ d.upperBound.y) &&
  decide (d.lowerBound.z ≤ p.z) && decide (p.z ≤ d.upperBound.z)

/-- The points visited by `for (it = domain.begin(); it != domain.end(); it++)`:
all points between the two corners, the first coordinate varying fastest. -/
def Domain2D.points (d : Domain2D) : List Point2D :=
  (List.range (d.upperBound.y - d.lowerBound.y + 1).toNat).flatMap fun (j : Nat) =>
    (List.range (d.upperBound.x - d.lowerBound.x + 1).toNat).map fun (i : Nat) =>
      { x := d.lowerBound.x + (i : Int), y := d.lowerBound.y + (j : Int) }

/-- The input volume `Image3D`: a domain and one `unsigned char` per voxel. -/
structure Image3D where
  domain : Domain3D
  value : Point3D → Nat

/-- The output raster `Image2D`: a domain and one `unsigned char` per pixel. -/
structure Image2D where
  domain : Domain2D
  value : Point2D → Nat

/-- The call `Image2D resultingImage(aDomain2D)`: the container is allocated with
value-initialised (zero) pixels. -/
def Image2D.create (d : Domain2D) : Image2D :=
  { domain := d, value := fun _ => 0 }

/-- The call `image.setValue(p, v)` with an `unsigned int` argument `v`. -/
def Image2D.setValue (img : Image2D) (p : Point2D) (v : Nat) : Image2D :=
  { domain := img.domain, value := fun q => if q = p then toValue v else img.value q }

/-! ## The plane sampler -/

/-- The lattice point that the embedder of depth step `k` (constructed at
`ptCenter+normalDir*k` with `normalDir` and `widthImageScan`) computes for a pixel,
before its domain check.  The computation is floating-point geometry of the library
and is taken as a parameter. -/
abbrev PlaneGeometry := Nat → Point2D → Point3D

/-- The functor `Point2DEmbedderIn3D::operator()`: the computed point when it lies in
the volume domain, the lower bound of the domain otherwise. -/
def Point2DEmbedderIn3D (dom : Domain3D) (geom : Point2D → Point3D) (p : Point2D) : Point3D :=
  if dom.isInside (geom p) then geom p else dom.lowerBound

/-- The value `extractedImage(*it)` of the `ImageAdapterExtractor` built at step `k`:
the volume read at the embedded point, through the identity functor. -/
def extractedImage (inputImage : Image3D) (geom : PlaneGeometry) (k : Nat) (p : Point2D) : Nat :=
  inputImage.value (Point2DEmbedderIn3D inputImage.domain (geom k) p)

/-! ## The program -/

/-- The options read from the command line that the computation uses. -/
structure Options where
  thresholdMin : Int
  thresholdMax : Int
  width : Nat
  height : Nat
  heightFieldMaxScan : Nat
  setBackgroundLastDepth : Bool

/-- A line written to `trace.warning()`. -/
inductive Diagnostic where
  | maxScanClamped (maxScan : Nat)
deriving DecidableEq

/-- Lines 121-125: the effective `maxScan` and the diagnostics emitted. -/
def clampMaxScan (m : Nat) : Nat × List Diagnostic :=
  if m > valueMax then (valueMax, [Diagnostic.maxScanClamped valueMax]) else (m, [])

/-- Lines 119-120 and 136-137: the raster domain built from the options. -/
def aDomain2D (opts : Options) : Domain2D :=
  let widthImageScan := opts.height
  let heightImageScan := opts.width
  { lowerBound := { x := 0, y := 0 },
    upperBound := { x := toCoordinate widthImageScan, y := toCoordinate heightImageScan } }

/-- Lines 140-145: the raster is allocated and every pixel of its domain is set to 0. -/
def initialImage (d : Domain2D) : Image2D :=
  d.points.foldl (fun img p => img.setValue p 0) (Image2D.create d)

/-- One call of `resultingImage.setValue` made by the scan loop: the depth step, the
pixel and the `unsigned int` passed as value. -/
structure WriteEvent where
  k : Nat
  pixel : Point2D
  value : Nat
deriving DecidableEq

/-- The variables the scan loop updates.  The field `writes` is a ghost record of the
`setValue` calls of the scan loop, most recent first. -/
structure ScanState where
  resultingImage : Image2D
  maxDepthFound : Nat
  writes : List WriteEvent

/-- The threshold test of line 157-158 on a sampled value. -/
def inThresholds (minTh maxTh : Int) (v : Nat) : Bool :=
  decide ((v : Int) < maxTh) && decide ((v : Int) > minTh)

/-- Lines 157-161: the body of the inner loop for the pixel `p` at depth step `k`. -/
def scanPixel (ext : Nat → Point2D → Nat) (minTh maxTh : Int) (maxScan k : Nat)
    (s : ScanState) (p : Point2D) : ScanState :=
  if s.resultingImage.value p = 0 ∧ inThresholds minTh maxTh (ext k p) = true then
    { resultingImage := s.resultingImage.setValue p (uintSub maxScan k),
      maxDepthFound := k,
      writes := { k := k, pixel := p, value := uintSub maxScan k } :: s.writes }
  else s

/-- Lines 155-162: the inner loop of depth step `k` over the pixels `pts`. -/
def scanStep (ext : Nat → Point2D → Nat) (minTh maxTh : Int) (maxScan : Nat)
    (pts : List Point2D) (s : ScanState) (k : Nat) : ScanState :=
  pts.foldl (scanPixel ext minTh maxTh maxScan k) s

/-- Lines 149-163 cut after `steps` iterations: the state of the scan loop once the
depth steps `0, ..., steps-1` have run. -/
def scanLoop (ext : Nat → Point2D → Nat) (minTh maxTh : Int) (maxScan : Nat)
    (pts : List Point2D) (s : ScanState) (steps : Nat) : ScanState :=
  (List.range steps).foldl (scanStep ext minTh maxTh maxScan pts) s

/-- Lines 164-171: the background fill. -/
def backgroundFill (maxScan maxDepthFound : Nat) (pts : List Point2D) (img : Image2D) : Image2D :=
  pts.foldl (fun im p =>
    if im.value p = 0 then im.setValue p (uintSub maxScan maxDepthFound) else im) img

/-- The state at line 148: the initialised raster, `maxDepthFound = 0`, no `setValue`
call of the scan loop yet. -/
def scanInit (d : Domain2D) : ScanState :=
  { resultingImage := initialImage d, maxDepthFound := 0, writes := [] }

/-- Lines 140-163 cut after `steps` iterations of the depth loop. -/
def scanAfter (ext : Nat → Point2D → Nat) (minTh maxTh : Int) (maxScan : Nat) (d : Domain2D)
    (steps : Nat) : ScanState :=
  scanLoop ext minTh maxTh maxScan d.points (scanInit d) steps

/-- Lines 140-163 for a given sample function: initialisation, then the full scan
loop `for (k = 0; k < maxScan; k++)`. -/
def scan (ext : Nat → Point2D → Nat) (minTh maxTh : Int) (maxScan : Nat) (d : Domain2D) :
    ScanState :=
  scanAfter ext minTh maxTh maxScan d maxScan

/-- Lines 140-171 for a given sample function and an effective `maxScan`. -/
def heightField (ext : Nat → Point2D → Nat) (minTh maxTh : Int) (maxScan : Nat) (d : Domain2D)
    (setBackgroundLastDepth : Bool) : Image2D :=
  let s := scan ext minTh maxTh maxScan d
  if setBackgroundLastDepth then backgroundFill maxScan s.maxDepthFound d.points s.resultingImage
  else s.resultingImage

/-- What a run of the tool produces: the raster handed to the writer and the
diagnostics. -/
structure Output where
  resultingImage : Image2D
  diagnostics : List Diagnostic

/-- Lines 114-171 of `main`. -/
def vol2heightfield (opts : Options) (inputImage : Image3D) (geom : PlaneGeometry) : Output :=
  let clamped := clampMaxScan opts.heightFieldMaxScan
  { resultingImage :=
      heightField (extractedImage inputImage geom) opts.thresholdMin opts.thresholdMax
        clamped.1 (aDomain2D opts) opts.setBackgroundLastDepth,
    diagnostics := clamped.2 }

/-! ## Notions the properties are stated with -/

/-- The sample of pixel `p` at depth step `k` lies strictly inside the threshold
window. -/
def Hit (ext : Nat → Point2D → Nat) (minTh maxTh : Int) (k : Nat) (p : Point2D) : Prop :=
  minTh < (ext k p : Int) ∧ (ext k p : Int) < maxTh

instance (ext : Nat → Point2D → Nat) (minTh maxTh : Int) (k : Nat) (p : Point2D) :
    Decidable (Hit ext minTh maxTh k p) :=
  inferInstanceAs (Decidable (_ ∧ _))

/-- Step `k` is the first depth step at which the pixel `p` has a sample inside the
threshold window. -/
def IsFirstHit (ext : Nat → Point2D → Nat) (minTh maxTh : Int) (p : Point2D) (k : Nat) : Prop :=
  Hit ext minTh maxTh k p ∧ ∀ j, j < k → ¬ Hit ext minTh maxTh j p

instance (ext : Nat → Point2D → Nat) (minTh maxTh : Int) (p : Point2D) (k : Nat) :
    Decidable (IsFirstHit ext minTh maxTh p k) :=
  inferInstanceAs (Decidable (_ ∧ _))

/-- No pixel occurs twice among the recorded `setValue` calls, and every pixel that
occurs is non-zero in the raster. -/
def WritesOnce (s : ScanState) : Prop :=
  (s.writes.map WriteEvent.pixel).Nodup ∧ ∀ e, e ∈ s.writes → s.resultingImage.value e.pixel ≠ 0

/-- The variable `maxDepthFound` is the highest depth step of a recorded `setValue`
call of the scan loop, and 0 when there is none. -/
def IsLastHitDepth (s : ScanState) : Prop :=
  (∀ e, e ∈ s.writes → e.k ≤ s.maxDepthFound) ∧
    (s.writes = [] → s.maxDepthFound = 0) ∧
    (s.writes ≠ [] → ∃ e, e ∈ s.writes ∧ e.k = s.maxDepthFound)

/-- The depth loop of lines 149-163 cut after `steps` iterations, the inner loop of
step `k` visiting the pixels in the order `order k`. -/
def scanLoopOrdered (ext : Nat → Point2D → Nat) (minTh maxTh : Int) (maxScan : Nat)
    (order : Nat → List Point2D) (s : ScanState) (steps : Nat) : ScanState :=
  (List.range steps).foldl (fun st k => scanStep ext minTh maxTh maxScan (order k) st k) s

/-! ## The helper `writePixel` of `DECHelpers.h` -/

/-- Wrap of an integer into the range of the 32-bit signed `Point::Coordinate`. -/
def wrapCoordinate (z : Int) : Int := (z + 2147483648) % 4294967296 - 2147483648

/-- An image of the template parameter `Image` of `writePixel`: a domain and a value
at each point. -/
structure Image (Value : Type) where
  domain : Domain2D
  value : Point2D → Value

/-- The call `image.setValue(p, v)` of an image container: it is defined for the
points of the domain of the image. -/
def Image.setValue {Value : Type} (image : Image Value) (p : Point2D) (v : Value) :
    Option (Image Value) :=
  if image.domain.isInside p = true then
    some { domain := image.domain, value := fun q => if q = p then v else image.value q }
  else none

/-- The statement `pt *= pixel_size` on 32-bit coordinates. -/
def Point2D.scale (pt : Point2D) (c : Int) : Point2D :=
  { x := wrapCoordinate (pt.x * c), y := wrapCoordinate (pt.y * c) }

/-- The expression `pt + q` on 32-bit coordinates. -/
def Point2D.add (pt q : Point2D) : Point2D :=
  { x := wrapCoordinate (pt.x + q.x), y := wrapCoordinate (pt.y + q.y) }

/-- The function `writePixel` (lines 118-131 of `DECHelpers.h`): the two nested loops
over `y` and `x` below `pixel_size`, each calling `setValue` at the scaled point
shifted by `(x, y)`. -/
def writePixel {Value : Type} (image : Image Value) (pt : Point2D) (val : Value)
    (pixel_size : Int) : Option (Image Value) :=
  (List.range pixel_size.toNat).foldlM (fun (img : Image Value) (y : Nat) =>
    (List.range pixel_size.toNat).foldlM (fun (im : Image Value) (x : Nat) =>
      im.setValue ((pt.scale pixel_size).add { x := (x : Int), y := (y : Int) }) val) img) image

/-- The point `r` is one of the points `pt * pixel_size + (x, y)` with
`0 <= x, y < pixel_size`. -/
def InPixelBlock (pt : Point2D) (pixel_size : Int) (r : Point2D) : Prop :=
  ∃ x y : Int, 0 ≤ x ∧ x < pixel_size ∧ 0 ≤ y ∧ y < pixel_size ∧
    r = { x := pt.x * pixel_size + x, y := pt.y * pixel_size + y }

/-- The corners of the domain are points with 32-bit signed coordinates. -/
def Domain2D.Representable (d : Domain2D) : Prop :=
  -2147483648 ≤ d.lowerBound.x ∧ d.upperBound.x < 2147483648 ∧
    -2147483648 ≤ d.lowerBound.y ∧ d.upperBound.y < 2147483648

/-- A 10x10 image of natural numbers that is 0 everywhere. -/
def blankImage : Image Nat :=
  { domain := { lowerBound := ⟨0, 0⟩, upperBound := ⟨9, 9⟩ }, value := fun _ => 0 }

/-! ## Concrete inputs -/

/-- A 10x10x10 volume that is 200 on the slice `z = 5` and 0 elsewhere. -/
def shellVolume : Image3D :=
  { domain := { lowerBound := ⟨0, 0, 0⟩, upperBound := ⟨9, 9, 9⟩ },
    value := fun p => if p.z = 5 then 200 else 0 }

/-- A 10x10x10 volume that is 200 everywhere. -/
def brightVolume : Image3D :=
  { domain := { lowerBound := ⟨0, 0, 0⟩, upperBound := ⟨9, 9, 9⟩ },
    value := fun _ => 200 }

/-- A 2x2x2 volume that is 200 on the face `x = 1` and 0 elsewhere. -/
def faceVolume : Image3D :=
  { domain := { lowerBound := ⟨0, 0, 0⟩, upperBound := ⟨1, 1, 1⟩ },
    value := fun p => if p.x = 1 then 200 else 0 }

/-- A 2x2x2 volume that is 200 at its lower bound `(0,0,0)` and 0 elsewhere. -/
def cornerVolume : Image3D :=
  { domain := { lowerBound := ⟨0, 0, 0⟩, upperBound := ⟨1, 1, 1⟩ },
    value := fun p => if p = ⟨0, 0, 0⟩ then 200 else 0 }

/-- Planes orthogonal to the direction (0,0,1) around the origin (100,100,0): pixel
`(u, v)` of step `k` is sent to `(100 + u, 100 + v, k)`. -/
def farGeometry : PlaneGeometry :=
  fun k p => { x := 100 + p.x, y := 100 + p.y, z := (k : Int) }

/-- The options `--width 2 --height 3 --heightFieldMaxScan 10` with the default
thresholds. -/
def rectOptions : Options :=
  { thresholdMin := 128, thresholdMax := 255, width := 2, height := 3,
    heightFieldMaxScan := 10, setBackgroundLastDepth := false }

/-- Planes orthogonal to the direction (0,0,1): pixel `(u, v)` of step `k` is sent to
`(u, v, k)`. -/
def axisGeometry : PlaneGeometry := fun k p => { x := p.x, y := p.y, z := (k : Int) }

/-- The raster domain for `--width 1 --height 1`. -/
def smallDomain : Domain2D :=
  aDomain2D { thresholdMin := 128, thresholdMax := 255, width := 1, height := 1,
              heightFieldMaxScan := 10, setBackgroundLastDepth := false }

/-- A 10x10x10 volume that is 0 everywhere. -/
def zeroVolume : Image3D :=
  { domain := { lowerBound := ⟨0, 0, 0⟩, upperBound := ⟨9, 9, 9⟩ },
    value := fun _ => 0 }

/-- Options with a scan depth above 255, as in the example of the usage message
(`-m 60 -M 500 --heightFieldMaxScan 350`), on a small raster. -/
def deepScanOptions : Options :=
  { thresholdMin := 60, thresholdMax := 500, width := 1, height := 1,
    heightFieldMaxScan := 350, setBackgroundLastDepth := false }

/-- Options with the empty threshold window `-m 200 -M 200` on a small raster. -/
def emptyWindowOptions : Options :=
  { thresholdMin := 200, thresholdMax := 200, width := 1, height := 1,
    heightFieldMaxScan := 10, setBackgroundLastDepth := false }

/-! ## Arithmetic of the stored values -/

theorem clampMaxScan_le (m : Nat) : (clampMaxScan m).1 ≤ valueMax := by
  unfold clampMaxScan
  split
  · exact le_refl _
  · simp only; omega

theorem uintSub_eq {M k : Nat} (hM : M ≤ valueMax) (hk : k ≤ M) : uintSub M k = M - k := by
  unfold valueMax at hM
  unfold uintSub
  omega

theorem toValue_uintSub {M k : Nat} (hM : M ≤ valueMax) (hk : k ≤ M) :
    toValue (uintSub M k) = M - k := by
  rw [uintSub_eq hM hk]
  unfold valueMax at hM
  unfold toValue
  omega

theorem inThresholds_iff (ext : Nat → Point2D → Nat) (minTh maxTh : Int) (k : Nat) (p : Point2D) :
    inThresholds minTh maxTh (ext k p) = true ↔ Hit ext minTh maxTh k p := by
  unfold inThresholds Hit
  simp only [Bool.and_eq_true, decide_eq_true_eq, gt_iff_lt]
  exact And.comm

/-! ## The raster after initialisation -/

theorem foldl_setZero_value (pts : List Point2D) (img : Image2D)
    (h : ∀ q, img.value q = 0) (q : Point2D) :
    (pts.foldl (fun im p => im.setValue p 0) img).value q = 0 := by
  induction pts generalizing img with
  | nil => exact h q
  | cons a pts ih =>
    apply ih
    intro r
    simp only [Image2D.setValue, toValue]
    split
    · rfl
    · exact h r

theorem initialImage_value (d : Domain2D) (q : Point2D) : (initialImage d).value q = 0 :=
  foldl_setZero_value d.points (Image2D.create d) (fun _ => rfl) q

/-! ## One depth step -/

section Step

variable (ext : Nat → Point2D → Nat) (minTh maxTh : Int) (M k : Nat)

theorem scanPixel_hit (s : ScanState) (q : Point2D)
    (h : s.resultingImage.value q = 0 ∧ Hit ext minTh maxTh k q) :
    scanPixel ext minTh maxTh M k s q =
      { resultingImage := s.resultingImage.setValue q (uintSub M k),
        maxDepthFound := k,
        writes := { k := k, pixel := q, value := uintSub M k } :: s.writes } := by
  unfold scanPixel
  exact if_pos ⟨h.1, (inThresholds_iff ext minTh maxTh k q).2 h.2⟩

theorem scanPixel_skip (s : ScanState) (q : Point2D)
    (h : ¬ (s.resultingImage.value q = 0 ∧ Hit ext minTh maxTh k q)) :
    scanPixel ext minTh maxTh M k s q = s := by
  unfold scanPixel
  exact if_neg (fun h1 => h ⟨h1.1, (inThresholds_iff ext minTh maxTh k q).1 h1.2⟩)

theorem scanStep_value (hM : M ≤ valueMax) (hk : k < M) (pts : List Point2D) (s : ScanState)
    (p : Point2D) :
    (scanStep ext minTh maxTh M pts s k).resultingImage.value p =
      if s.resultingImage.value p = 0 ∧ p ∈ pts ∧ Hit ext minTh maxTh k p then M - k
      else s.resultingImage.value p := by
  have hV : toValue (uintSub M k) = M - k := toValue_uintSub hM (Nat.le_of_lt hk)
  unfold scanStep
  induction pts generalizing s with
  | nil => simp
  | cons q pts ih =>
    rw [List.foldl_cons, ih]
    by_cases hq : s.resultingImage.value q = 0 ∧ Hit ext minTh maxTh k q
    · rw [scanPixel_hit ext minTh maxTh M k s q hq]
      by_cases hpq : p = q
      · subst hpq
        have h1 : ¬ (M - k = 0) := by omega
        simp [Image2D.setValue, hV, hq.1, hq.2, h1]
      · simp [Image2D.setValue, hpq]
    · rw [scanPixel_skip ext minTh maxTh M k s q hq]
      by_cases hpq : p = q
      · subst hpq
        have h2 : ¬ (s.resultingImage.value p = 0 ∧ p ∈ pts ∧ Hit ext minTh maxTh k p) :=
          fun h => hq ⟨h.1, h.2.2⟩
        have h3 : ¬ (s.resultingImage.value p = 0 ∧ p ∈ p :: pts ∧ Hit ext minTh maxTh k p) :=
          fun h => hq ⟨h.1, h.2.2⟩
        rw [if_neg h2, if_neg h3]
      · simp [hpq]

theorem scanStep_maxDepthFound (hM : M ≤ valueMax) (hk : k < M) (pts : List Point2D)
    (s : ScanState) :
    (scanStep ext minTh maxTh M pts s k).maxDepthFound =
      if ∃ p, p ∈ pts ∧ s.resultingImage.value p = 0 ∧ Hit ext minTh maxTh k p then k
      else s.maxDepthFound := by
  have hV : toValue (uintSub M k) = M - k := toValue_uintSub hM (Nat.le_of_lt hk)
  unfold scanStep
  induction pts generalizing s with
  | nil => simp
  | cons q pts ih =>
    rw [List.foldl_cons, ih]
    by_cases hq : s.resultingImage.value q = 0 ∧ Hit ext minTh maxTh k q
    · rw [scanPixel_hit ext minTh maxTh M k s q hq]
      have h1 : ∃ p, p ∈ q :: pts ∧ s.resultingImage.value p = 0 ∧ Hit ext minTh maxTh k p :=
        ⟨q, List.mem_cons_self q pts, hq⟩
      rw [if_pos h1]
      simp
    · rw [scanPixel_skip ext minTh maxTh M k s q hq]
      have h1 : (∃ p, p ∈ q :: pts ∧ s.resultingImage.value p = 0 ∧ Hit ext minTh maxTh k p) ↔
          ∃ p, p ∈ pts ∧ s.resultingImage.value p = 0 ∧ Hit ext minTh maxTh k p := by
        constructor
        · rintro ⟨p, hp, h⟩
          rcases List.mem_cons.1 hp with rfl | hp
          · exact absurd h hq
          · exact ⟨p, hp, h⟩
        · rintro ⟨p, hp, h⟩
          exact ⟨p, List.mem_cons_of_mem q hp, h⟩
      simp only [h1]

/-- The `setValue` calls recorded by one depth step: the ones recorded before, and one
for each pixel of the domain that was still 0 and whose sample is in the window. -/
theorem scanStep_writes (hM : M ≤ valueMax) (hk : k < M) (pts : List Point2D) (s : ScanState)
    (e : WriteEvent) :
    e ∈ (scanStep ext minTh maxTh M pts s k).writes ↔
      e ∈ s.writes ∨ (e.k = k ∧ e.pixel ∈ pts ∧ s.resultingImage.value e.pixel = 0 ∧
        Hit ext minTh maxTh k e.pixel ∧ e.value = uintSub M k) := by
  have hV : toValue (uintSub M k) = M - k := toValue_uintSub hM (Nat.le_of_lt hk)
  unfold scanStep
  induction pts generalizing s with
  | nil => simp
  | cons q pts ih =>
    rw [List.foldl_cons]
    refine (ih _).trans ?_
    by_cases hq : s.resultingImage.value q = 0 ∧ Hit ext minTh maxTh k q
    · rw [scanPixel_hit ext minTh maxTh M k s q hq]
      have h1 : ¬ (M - k = 0) := by omega
      constructor
      · rintro (h | ⟨h2, h3, h4, h5, h6⟩)
        · rcases List.mem_cons.1 h with rfl | h
          · exact Or.inr ⟨rfl, List.mem_cons_self _ _, hq.1, hq.2, rfl⟩
          · exact Or.inl h
        · right
          refine ⟨h2, List.mem_cons_of_mem _ h3, ?_, h5, h6⟩
          by_cases hpq : e.pixel = q
          · rw [hpq]; exact hq.1
          · simpa [Image2D.setValue, hpq] using h4
      · rintro (h | ⟨h2, h3, h4, h5, h6⟩)
        · exact Or.inl (List.mem_cons_of_mem _ h)
        · by_cases hpq : e.pixel = q
          · left
            have : e = { k := k, pixel := q, value := uintSub M k } := by
              cases e
              simp only [WriteEvent.mk.injEq]
              exact ⟨h2, hpq, h6⟩
            rw [this]
            exact List.mem_cons_self _ _
          · right
            rcases List.mem_cons.1 h3 with h3 | h3
            · exact absurd h3 hpq
            · refine ⟨h2, h3, ?_, h5, h6⟩
              simpa [Image2D.setValue, hpq] using h4
    · rw [scanPixel_skip ext minTh maxTh M k s q hq]
      constructor
      · rintro (h | ⟨h2, h3, h4, h5, h6⟩)
        · exact Or.inl h
        · exact Or.inr ⟨h2, List.mem_cons_of_mem _ h3, h4, h5, h6⟩
      · rintro (h | ⟨h2, h3, h4, h5, h6⟩)
        · exact Or.inl h
        · rcases List.mem_cons.1 h3 with h3 | h3
          · rw [h3] at h4 h5
            exact absurd ⟨h4, h5⟩ hq
          · exact Or.inr ⟨h2, h3, h4, h5, h6⟩

end Step

/-! ## The scan loop -/

section Loop

variable (ext : Nat → Point2D → Nat) (minTh maxTh : Int) (M : Nat)

theorem scanLoop_zero (pts : List Point2D) (s : ScanState) :
    scanLoop ext minTh maxTh M pts s 0 = s := rfl

theorem scanLoop_succ (pts : List Point2D) (s : ScanState) (K : Nat) :
    scanLoop ext minTh maxTh M pts s (K + 1) =
      scanStep ext minTh maxTh M pts (scanLoop ext minTh maxTh M pts s K) K := by
  unfold scanLoop
  rw [List.range_succ, List.foldl_append]
  rfl

/-- The raster after the depth steps `0, ..., K-1`: a pixel is 0 exactly when it is not
a pixel of the domain with a sample in the window at one of these steps, and a pixel
of the domain whose first such step is `k0` holds `M - k0`. -/
theorem scanLoop_value (hM : M ≤ valueMax) (pts : List Point2D) (s0 : ScanState)
    (h0 : ∀ q, s0.resultingImage.value q = 0) (K : Nat) (hK : K ≤ M) (p : Point2D) :
    ((scanLoop ext minTh maxTh M pts s0 K).resultingImage.value p = 0 ↔
        ¬ (p ∈ pts ∧ ∃ k, k < K ∧ Hit ext minTh maxTh k p)) ∧
      (∀ k0, p ∈ pts → k0 < K → IsFirstHit ext minTh maxTh p k0 →
        (scanLoop ext minTh maxTh M pts s0 K).resultingImage.value p = M - k0) := by
  induction K with
  | zero =>
    rw [scanLoop_zero]
    refine ⟨?_, ?_⟩
    · constructor
      · rintro - ⟨-, k, hk, -⟩
        exact Nat.not_lt_zero k hk
      · intro _
        exact h0 p
    · intro k0 _ hk0
      exact absurd hk0 (Nat.not_lt_zero k0)
  | succ K ih =>
    obtain ⟨iha, ihb⟩ := ih (Nat.le_of_succ_le hK)
    have hKM : K < M := hK
    rw [scanLoop_succ, scanStep_value ext minTh maxTh M K hM hKM]
    by_cases hg : (scanLoop ext minTh maxTh M pts s0 K).resultingImage.value p = 0 ∧ p ∈ pts ∧
        Hit ext minTh maxTh K p
    · rw [if_pos hg]
      refine ⟨?_, ?_⟩
      · constructor
        · intro h
          omega
        · intro h
          exact absurd ⟨hg.2.1, K, Nat.lt_succ_self K, hg.2.2⟩ h
      · intro k0 hp hk0 hfirst
        rcases Nat.lt_succ_iff_lt_or_eq.1 hk0 with hlt | heq
        · exact absurd ⟨hp, k0, hlt, hfirst.1⟩ (iha.1 hg.1)
        · rw [heq]
    · rw [if_neg hg]
      refine ⟨?_, ?_⟩
      · constructor
        · rintro h ⟨hp, k, hk, hhit⟩
          rcases Nat.lt_succ_iff_lt_or_eq.1 hk with hlt | heq
          · exact iha.1 h ⟨hp, k, hlt, hhit⟩
          · rw [heq] at hhit
            exact hg ⟨h, hp, hhit⟩
        · intro h
          apply iha.2
          rintro ⟨hp, k, hk, hhit⟩
          exact h ⟨hp, k, Nat.lt_succ_of_lt hk, hhit⟩
      · intro k0 hp hk0 hfirst
        rcases Nat.lt_succ_iff_lt_or_eq.1 hk0 with hlt | heq
        · exact ihb k0 hp hlt hfirst
        · rw [heq] at hfirst
          have hz : (scanLoop ext minTh maxTh M pts s0 K).resultingImage.value p = 0 := by
            apply iha.2
            rintro ⟨-, k, hk, hhit⟩
            exact hfirst.2 k hk hhit
          exact absurd ⟨hz, hp, hfirst.1⟩ hg

/-- A sample in the window at some step below `K` gives a first such step below `K`. -/
theorem exists_isFirstHit (p : Point2D) (K : Nat)
    (h : ∃ k, k < K ∧ Hit ext minTh maxTh k p) :
    ∃ k0, k0 < K ∧ IsFirstHit ext minTh maxTh p k0 := by
  classical
  obtain ⟨k, hk, hhit⟩ := h
  have hex : ∃ n, Hit ext minTh maxTh n p := ⟨k, hhit⟩
  refine ⟨Nat.find hex, ?_, Nat.find_spec hex, ?_⟩
  · exact lt_of_le_of_lt (Nat.find_min' hex hhit) hk
  · intro j hj
    exact Nat.find_min hex hj

theorem isFirstHit_unique (p : Point2D) (a b : Nat) (ha : IsFirstHit ext minTh maxTh p a)
    (hb : IsFirstHit ext minTh maxTh p b) : a = b := by
  rcases Nat.lt_trichotomy a b with h | h | h
  · exact absurd ha.1 (hb.2 a h)
  · exact h
  · exact absurd hb.1 (ha.2 b h)

/-- The variable `maxDepthFound` after the depth steps `0, ..., K-1`: it bounds every
first-hit step of a pixel of the domain below `K`, and it is 0 or itself such a step. -/
theorem scanLoop_maxDepthFound (hM : M ≤ valueMax) (pts : List Point2D) (s0 : ScanState)
    (h0 : ∀ q, s0.resultingImage.value q = 0) (hd : s0.maxDepthFound = 0)
    (K : Nat) (hK : K ≤ M) :
    (∀ p k, p ∈ pts → k < K → IsFirstHit ext minTh maxTh p k →
        k ≤ (scanLoop ext minTh maxTh M pts s0 K).maxDepthFound) ∧
      ((scanLoop ext minTh maxTh M pts s0 K).maxDepthFound = 0 ∨
        ((scanLoop ext minTh maxTh M pts s0 K).maxDepthFound < K ∧
          ∃ p, p ∈ pts ∧
            IsFirstHit ext minTh maxTh p (scanLoop ext minTh maxTh M pts s0 K).maxDepthFound)) := by
  induction K with
  | zero =>
    rw [scanLoop_zero]
    exact ⟨fun p k _ hk _ => absurd hk (Nat.not_lt_zero k), Or.inl hd⟩
  | succ K ih =>
    obtain ⟨iha, ihb⟩ := ih (Nat.le_of_succ_le hK)
    have hKM : K < M := hK
    have hval := fun p => scanLoop_value ext minTh maxTh M hM pts s0 h0 K (Nat.le_of_succ_le hK) p
    rw [scanLoop_succ, scanStep_maxDepthFound ext minTh maxTh M K hM hKM]
    by_cases hg : ∃ p, p ∈ pts ∧ (scanLoop ext minTh maxTh M pts s0 K).resultingImage.value p = 0 ∧
        Hit ext minTh maxTh K p
    · rw [if_pos hg]
      refine ⟨fun p k _ hk _ => Nat.le_of_lt_succ hk, Or.inr ⟨Nat.lt_succ_self K, ?_⟩⟩
      obtain ⟨p, hp, hz, hhit⟩ := hg
      refine ⟨p, hp, hhit, ?_⟩
      intro j hj hjhit
      exact (hval p).1.1 hz ⟨hp, j, hj, hjhit⟩
    · rw [if_neg hg]
      refine ⟨?_, ?_⟩
      · intro p k hp hk hfirst
        rcases Nat.lt_succ_iff_lt_or_eq.1 hk with hlt | heq
        · exact iha p k hp hlt hfirst
        · rw [heq] at hfirst
          have hz : (scanLoop ext minTh maxTh M pts s0 K).resultingImage.value p = 0 := by
            apply (hval p).1.2
            rintro ⟨-, j, hj, hjhit⟩
            exact hfirst.2 j hj hjhit
          exact absurd ⟨p, hp, hz, hfirst.1⟩ hg
      · rcases ihb with h | ⟨h1, h2⟩
        · exact Or.inl h
        · exact Or.inr ⟨Nat.lt_succ_of_lt h1, h2⟩

/-- The variable `maxDepthFound` does not decrease from one depth step to the next. -/
theorem scanLoop_maxDepthFound_mono (hM : M ≤ valueMax) (pts : List Point2D) (s0 : ScanState)
    (h0 : ∀ q, s0.resultingImage.value q = 0) (hd : s0.maxDepthFound = 0)
    (K : Nat) (hK : K < M) :
    (scanLoop ext minTh maxTh M pts s0 K).maxDepthFound ≤
      (scanLoop ext minTh maxTh M pts s0 (K + 1)).maxDepthFound := by
  have hb := (scanLoop_maxDepthFound ext minTh maxTh M hM pts s0 h0 hd K (Nat.le_of_lt hK)).2
  rw [scanLoop_succ, scanStep_maxDepthFound ext minTh maxTh M K hM hK]
  split
  · rcases hb with h | ⟨h, -⟩
    · rw [h]; exact Nat.zero_le K
    · exact Nat.le_of_lt h
  · exact le_refl _

/-- The `setValue` calls of the depth steps `0, ..., K-1`: one per pixel of the domain
with a first-hit step below `K`, made at that step with the value `M` minus the step. -/
theorem scanLoop_writes (hM : M ≤ valueMax) (pts : List Point2D) (s0 : ScanState)
    (h0 : ∀ q, s0.resultingImage.value q = 0) (hw : s0.writes = [])
    (K : Nat) (hK : K ≤ M) (e : WriteEvent) :
    e ∈ (scanLoop ext minTh maxTh M pts s0 K).writes ↔
      e.pixel ∈ pts ∧ e.k < K ∧ IsFirstHit ext minTh maxTh e.pixel e.k ∧ e.value = M - e.k := by
  induction K with
  | zero =>
    rw [scanLoop_zero, hw]
    constructor
    · intro h
      exact absurd h (List.not_mem_nil e)
    · rintro ⟨-, h, -⟩
      exact absurd h (Nat.not_lt_zero _)
  | succ K ih =>
    have ih := ih (Nat.le_of_succ_le hK)
    have hKM : K < M := hK
    have hval := scanLoop_value ext minTh maxTh M hM pts s0 h0 K (Nat.le_of_succ_le hK) e.pixel
    rw [scanLoop_succ, scanStep_writes ext minTh maxTh M K hM hKM, ih,
      uintSub_eq hM (Nat.le_of_lt hKM)]
    constructor
    · rintro (⟨h1, h2, h3, h4⟩ | ⟨h1, h2, h3, h4, h5⟩)
      · exact ⟨h1, Nat.lt_succ_of_lt h2, h3, h4⟩
      · refine ⟨h2, by omega, ?_, by rw [h5, h1]⟩
        rw [h1]
        refine ⟨h4, ?_⟩
        intro j hj hjhit
        exact hval.1.1 h3 ⟨h2, j, hj, hjhit⟩
    · rintro ⟨h1, h2, h3, h4⟩
      rcases Nat.lt_succ_iff_lt_or_eq.1 h2 with hlt | heq
      · exact Or.inl ⟨h1, hlt, h3, h4⟩
      · right
        rw [heq] at h3 h4
        refine ⟨heq, h1, ?_, h3.1, h4⟩
        apply hval.1.2
        rintro ⟨-, j, hj, hjhit⟩
        exact h3.2 j hj hjhit

theorem scanPixel_writesOnce (hM : M ≤ valueMax) (k : Nat) (hk : k < M) (s : ScanState)
    (q : Point2D) (h : WritesOnce s) : WritesOnce (scanPixel ext minTh maxTh M k s q) := by
  have hV : toValue (uintSub M k) = M - k := toValue_uintSub hM (Nat.le_of_lt hk)
  have hV0 : toValue (uintSub M k) ≠ 0 := by rw [hV]; omega
  by_cases hq : s.resultingImage.value q = 0 ∧ Hit ext minTh maxTh k q
  · rw [scanPixel_hit ext minTh maxTh M k s q hq]
    refine ⟨?_, ?_⟩
    · simp only [List.map_cons, List.nodup_cons]
      refine ⟨?_, h.1⟩
      intro hmem
      obtain ⟨e, he, hpe⟩ := List.mem_map.1 hmem
      apply h.2 e he
      rw [hpe]
      exact hq.1
    · intro e he
      simp only [Image2D.setValue]
      split
      · exact hV0
      · rcases List.mem_cons.1 he with rfl | he
        · exact absurd rfl ‹¬ _›
        · exact h.2 e he
  · rw [scanPixel_skip ext minTh maxTh M k s q hq]
    exact h

theorem scanStep_writesOnce (hM : M ≤ valueMax) (k : Nat) (hk : k < M) (pts : List Point2D)
    (s : ScanState) (h : WritesOnce s) : WritesOnce (scanStep ext minTh maxTh M pts s k) := by
  unfold scanStep
  induction pts generalizing s with
  | nil => exact h
  | cons q pts ih =>
    rw [List.foldl_cons]
    exact ih _ (scanPixel_writesOnce ext minTh maxTh M hM k hk s q h)

theorem scanLoop_writesOnce (hM : M ≤ valueMax) (pts : List Point2D) (s0 : ScanState)
    (hw : s0.writes = []) (K : Nat) (hK : K ≤ M) :
    WritesOnce (scanLoop ext minTh maxTh M pts s0 K) := by
  induction K with
  | zero =>
    rw [scanLoop_zero]
    unfold WritesOnce
    rw [hw]
    exact ⟨List.nodup_nil, fun e he => absurd he (List.not_mem_nil e)⟩
  | succ K ih =>
    rw [scanLoop_succ]
    exact scanStep_writesOnce ext minTh maxTh M hM K hK pts _ (ih (Nat.le_of_succ_le hK))

end Loop

/-! ## The background fill -/

theorem backgroundFill_value (M L : Nat) (pts : List Point2D) (img : Image2D) (p : Point2D) :
    (backgroundFill M L pts img).value p =
      if p ∈ pts ∧ img.value p = 0 then toValue (uintSub M L) else img.value p := by
  unfold backgroundFill
  induction pts generalizing img with
  | nil => simp
  | cons q pts ih =>
    rw [List.foldl_cons, ih]
    by_cases hpq : p = q
    · subst hpq
      by_cases hz : img.value p = 0
      · simp [hz, Image2D.setValue]
      · simp [hz]
    · by_cases hz : img.value q = 0
      · simp [hz, hpq, Image2D.setValue]
      · simp [hz, hpq]

/-! ## The state of the program after each depth step -/

section Program

variable (ext : Nat → Point2D → Nat) (minTh maxTh : Int) (m : Nat) (d : Domain2D)

theorem scanInit_value (q : Point2D) : (scanInit d).resultingImage.value q = 0 :=
  initialImage_value d q

theorem scanAfter_isLastHitDepth (K : Nat) (hK : K ≤ (clampMaxScan m).1) :
    IsLastHitDepth (scanAfter ext minTh maxTh (clampMaxScan m).1 d K) := by
  have hM := clampMaxScan_le m
  have hw := scanLoop_writes ext minTh maxTh (clampMaxScan m).1 hM d.points (scanInit d)
    (scanInit_value d) rfl K hK
  obtain ⟨ha, hb⟩ := scanLoop_maxDepthFound ext minTh maxTh (clampMaxScan m).1 hM d.points
    (scanInit d) (scanInit_value d) rfl K hK
  have hmem : ¬ ((scanAfter ext minTh maxTh (clampMaxScan m).1 d K).maxDepthFound = 0) →
      ∃ e, e ∈ (scanAfter ext minTh maxTh (clampMaxScan m).1 d K).writes ∧
        e.k = (scanAfter ext minTh maxTh (clampMaxScan m).1 d K).maxDepthFound := by
    intro hne
    rcases hb with h | ⟨h1, p, hp, hfirst⟩
    · exact absurd h hne
    · exact ⟨{ k := (scanAfter ext minTh maxTh (clampMaxScan m).1 d K).maxDepthFound, pixel := p,
               value := (clampMaxScan m).1 -
                 (scanAfter ext minTh maxTh (clampMaxScan m).1 d K).maxDepthFound },
        (hw _).2 ⟨hp, h1, hfirst, rfl⟩, rfl⟩
  refine ⟨?_, ?_, ?_⟩
  · intro e he
    obtain ⟨h1, h2, h3, -⟩ := (hw e).1 he
    exact ha e.pixel e.k h1 h2 h3
  · intro hnil
    by_contra hne
    obtain ⟨e, he, -⟩ := hmem hne
    rw [hnil] at he
    exact List.not_mem_nil e he
  · intro hne
    by_cases hz : (scanAfter ext minTh maxTh (clampMaxScan m).1 d K).maxDepthFound = 0
    · obtain ⟨e, he⟩ := List.exists_mem_of_ne_nil _ hne
      refine ⟨e, he, ?_⟩
      obtain ⟨h1, h2, h3, -⟩ := (hw e).1 he
      have := ha e.pixel e.k h1 h2 h3
      have hz2 : (scanLoop ext minTh maxTh (clampMaxScan m).1 d.points (scanInit d) K).maxDepthFound
          = 0 := hz
      omega
    · exact hmem hz

/-- A pixel that is non-zero after `K` depth steps has a recorded `setValue` call. -/
theorem scanAfter_written_of_ne_zero (K : Nat) (hK : K ≤ (clampMaxScan m).1) (p : Point2D)
    (hnz : (scanAfter ext minTh maxTh (clampMaxScan m).1 d K).resultingImage.value p ≠ 0) :
    ∃ e, e ∈ (scanAfter ext minTh maxTh (clampMaxScan m).1 d K).writes ∧ e.pixel = p := by
  have hM := clampMaxScan_le m
  have hv := (scanLoop_value ext minTh maxTh (clampMaxScan m).1 hM d.points (scanInit d)
    (scanInit_value d) K hK p).1
  have hhit : p ∈ d.points ∧ ∃ k, k < K ∧ Hit ext minTh maxTh k p := by
    by_contra hno
    exact hnz (hv.2 hno)
  obtain ⟨k0, hk0, hfirst⟩ := exists_isFirstHit ext minTh maxTh p K hhit.2
  exact ⟨{ k := k0, pixel := p, value := (clampMaxScan m).1 - k0 },
    (scanLoop_writes ext minTh maxTh (clampMaxScan m).1 hM d.points (scanInit d)
      (scanInit_value d) rfl K hK _).2 ⟨hhit.1, hk0, hfirst, rfl⟩, rfl⟩

/-- A non-zero pixel after `K` depth steps is a pixel of the domain that holds the
effective `maxScan` minus its first-hit step, which is below `K`. -/
theorem scanAfter_value_of_ne_zero (K : Nat) (hK : K ≤ (clampMaxScan m).1) (p : Point2D)
    (hnz : (scanAfter ext minTh maxTh (clampMaxScan m).1 d K).resultingImage.value p ≠ 0) :
    ∃ k0, k0 < K ∧ p ∈ d.points ∧ IsFirstHit ext minTh maxTh p k0 ∧
      (scanAfter ext minTh maxTh (clampMaxScan m).1 d K).resultingImage.value p =
        (clampMaxScan m).1 - k0 := by
  have hM := clampMaxScan_le m
  have hv := scanLoop_value ext minTh maxTh (clampMaxScan m).1 hM d.points (scanInit d)
    (scanInit_value d) K hK p
  have hhit : p ∈ d.points ∧ ∃ k, k < K ∧ Hit ext minTh maxTh k p := by
    by_contra hno
    exact hnz (hv.1.2 hno)
  obtain ⟨k0, hk0, hfirst⟩ := exists_isFirstHit ext minTh maxTh p K hhit.2
  exact ⟨k0, hk0, hhit.1, hfirst, hv.2 k0 hhit.1 hk0 hfirst⟩

end Program

set_option maxRecDepth 100000

/-! ## First hit wins, sentinel, background fill -/

/-- C1, first-hit-wins: for every sample function (volume and sampler), thresholds and
configured `maxScan`, a pixel written by the scan loop was written at a step `k` below
the effective `maxScan` at which its sample is strictly inside the threshold window,
no smaller step has such a sample, and the pixel holds `maxScan - k` at the end of the
scan. -/
theorem first_hit_wins (ext : Nat → Point2D → Nat) (minTh maxTh : Int) (m : Nat) (d : Domain2D)
    (e : WriteEvent) (he : e ∈ (scan ext minTh maxTh (clampMaxScan m).1 d).writes) :
    e.k < (clampMaxScan m).1 ∧ Hit ext minTh maxTh e.k e.pixel ∧
      (∀ j, j < e.k → ¬ Hit ext minTh maxTh j e.pixel) ∧
      (scan ext minTh maxTh (clampMaxScan m).1 d).resultingImage.value e.pixel =
        (clampMaxScan m).1 - e.k := by
  have hM := clampMaxScan_le m
  obtain ⟨h1, h2, h3, -⟩ := (scanLoop_writes ext minTh maxTh (clampMaxScan m).1 hM d.points
    (scanInit d) (scanInit_value d) rfl (clampMaxScan m).1 (le_refl _) e).1 he
  refine ⟨h2, h3.1, h3.2, ?_⟩
  exact (scanLoop_value ext minTh maxTh (clampMaxScan m).1 hM d.points (scanInit d)
    (scanInit_value d) (clampMaxScan m).1 (le_refl _) e.pixel).2 e.k h1 h2 h3

theorem first_hit_wins_witness :
    (({ k := 5, pixel := ⟨0, 0⟩, value := 5 } : WriteEvent) ∈
        (scan (extractedImage shellVolume axisGeometry) 128 255 (clampMaxScan 10).1
          smallDomain).writes ∧
      (scan (extractedImage shellVolume axisGeometry) 128 255 (clampMaxScan 10).1
          smallDomain).resultingImage.value ⟨0, 0⟩ = 5) ∧
    (({ k := 0, pixel := ⟨1, 1⟩, value := 10 } : WriteEvent) ∈
        (scan (extractedImage brightVolume axisGeometry) 128 255 (clampMaxScan 10).1
          smallDomain).writes ∧
      (scan (extractedImage brightVolume axisGeometry) 128 255 (clampMaxScan 10).1
          smallDomain).resultingImage.value ⟨1, 1⟩ = 10) :=
  ⟨⟨by decide,
    (first_hit_wins (extractedImage shellVolume axisGeometry) 128 255 10 smallDomain
      { k := 5, pixel := ⟨0, 0⟩, value := 5 } (by decide)).2.2.2⟩,
   ⟨by decide,
    (first_hit_wins (extractedImage brightVolume axisGeometry) 128 255 10 smallDomain
      { k := 0, pixel := ⟨1, 1⟩, value := 10 } (by decide)).2.2.2⟩⟩

/-- C2, sentinel invariant: a pixel of the raster holds 0 after the scan loop (before
the background fill) if and only if no step `k` below the effective `maxScan` has a
sample of that pixel strictly inside the threshold window. -/
theorem sentinel_iff_never_hit (ext : Nat → Point2D → Nat) (minTh maxTh : Int) (m : Nat)
    (d : Domain2D) (p : Point2D) (hp : p ∈ d.points) :
    (scan ext minTh maxTh (clampMaxScan m).1 d).resultingImage.value p = 0 ↔
      ¬ ∃ k, k < (clampMaxScan m).1 ∧ Hit ext minTh maxTh k p := by
  have h := (scanLoop_value ext minTh maxTh (clampMaxScan m).1 (clampMaxScan_le m) d.points
    (scanInit d) (scanInit_value d) (clampMaxScan m).1 (le_refl _) p).1
  constructor
  · intro hz hex
    exact h.1 hz ⟨hp, hex⟩
  · intro hno
    exact h.2 (fun hh => hno hh.2)

theorem sentinel_iff_never_hit_witness :
    (⟨0, 0⟩ : Point2D) ∈ smallDomain.points ∧
      ((scan (extractedImage faceVolume axisGeometry) 128 255 (clampMaxScan 10).1
          smallDomain).resultingImage.value ⟨0, 0⟩ = 0 ↔
        ¬ ∃ k, k < (clampMaxScan 10).1 ∧
          Hit (extractedImage faceVolume axisGeometry) 128 255 k ⟨0, 0⟩) :=
  ⟨by decide,
    sentinel_iff_never_hit (extractedImage faceVolume axisGeometry) 128 255 10 smallDomain
      ⟨0, 0⟩ (by decide)⟩

/-- C3, background fill: with `--setBackgroundLastDepth`, a raster pixel that is 0
after the complete scan becomes `maxScan - maxDepthFound`, where `maxDepthFound` is
the highest step at which a pixel was filled (0 when no pixel was filled, so that the
pixel becomes `maxScan`), and a raster pixel that is non-zero after the scan is
unchanged; without the flag the raster is the post-scan raster. -/
theorem background_fill_correct (ext : Nat → Point2D → Nat) (minTh maxTh : Int) (m : Nat)
    (d : Domain2D) (p : Point2D) (hp : p ∈ d.points) :
    IsLastHitDepth (scan ext minTh maxTh (clampMaxScan m).1 d) ∧
      (scan ext minTh maxTh (clampMaxScan m).1 d).maxDepthFound ≤ (clampMaxScan m).1 ∧
      ((scan ext minTh maxTh (clampMaxScan m).1 d).resultingImage.value p = 0 →
        (heightField ext minTh maxTh (clampMaxScan m).1 d true).value p =
          (clampMaxScan m).1 - (scan ext minTh maxTh (clampMaxScan m).1 d).maxDepthFound) ∧
      ((scan ext minTh maxTh (clampMaxScan m).1 d).resultingImage.value p ≠ 0 →
        (heightField ext minTh maxTh (clampMaxScan m).1 d true).value p =
          (scan ext minTh maxTh (clampMaxScan m).1 d).resultingImage.value p) ∧
      ((scan ext minTh maxTh (clampMaxScan m).1 d).writes = [] →
        (scan ext minTh maxTh (clampMaxScan m).1 d).maxDepthFound = 0 ∧
          (heightField ext minTh maxTh (clampMaxScan m).1 d true).value p = (clampMaxScan m).1) ∧
      heightField ext minTh maxTh (clampMaxScan m).1 d false =
        (scan ext minTh maxTh (clampMaxScan m).1 d).resultingImage := by
  have hM := clampMaxScan_le m
  have hlast : IsLastHitDepth (scan ext minTh maxTh (clampMaxScan m).1 d) :=
    scanAfter_isLastHitDepth ext minTh maxTh m d (clampMaxScan m).1 (le_refl _)
  have hle : (scan ext minTh maxTh (clampMaxScan m).1 d).maxDepthFound ≤ (clampMaxScan m).1 := by
    rcases (scanLoop_maxDepthFound ext minTh maxTh (clampMaxScan m).1 hM d.points (scanInit d)
      (scanInit_value d) rfl (clampMaxScan m).1 (le_refl _)).2 with h | ⟨h, -⟩
    · exact h ▸ Nat.zero_le _
    · exact Nat.le_of_lt h
  have hfill : ∀ q, (heightField ext minTh maxTh (clampMaxScan m).1 d true).value q =
      if q ∈ d.points ∧ (scan ext minTh maxTh (clampMaxScan m).1 d).resultingImage.value q = 0
      then toValue (uintSub (clampMaxScan m).1
        (scan ext minTh maxTh (clampMaxScan m).1 d).maxDepthFound)
      else (scan ext minTh maxTh (clampMaxScan m).1 d).resultingImage.value q := by
    intro q
    unfold heightField
    simp only [if_true]
    exact backgroundFill_value _ _ _ _ q
  have hzero : (scan ext minTh maxTh (clampMaxScan m).1 d).resultingImage.value p = 0 →
      (heightField ext minTh maxTh (clampMaxScan m).1 d true).value p =
        (clampMaxScan m).1 - (scan ext minTh maxTh (clampMaxScan m).1 d).maxDepthFound := by
    intro hz
    rw [hfill p, if_pos ⟨hp, hz⟩, toValue_uintSub hM hle]
  refine ⟨hlast, hle, hzero, ?_, ?_, ?_⟩
  · intro hnz
    rw [hfill p, if_neg (fun h => hnz h.2)]
  · intro hnil
    have h0 := hlast.2.1 hnil
    refine ⟨h0, ?_⟩
    have hz : (scan ext minTh maxTh (clampMaxScan m).1 d).resultingImage.value p = 0 := by
      by_contra hnz
      obtain ⟨e, he, -⟩ := scanAfter_written_of_ne_zero ext minTh maxTh m d (clampMaxScan m).1
        (le_refl _) p hnz
      have he2 : e ∈ (scan ext minTh maxTh (clampMaxScan m).1 d).writes := he
      rw [hnil] at he2
      exact List.not_mem_nil e he2
    rw [hzero hz, h0, Nat.sub_zero]
  · unfold heightField
    simp

theorem background_fill_correct_witness :
    (scan (extractedImage zeroVolume axisGeometry) 128 255 (clampMaxScan 10).1
        smallDomain).writes = [] ∧
      ∀ p, p ∈ smallDomain.points →
        (heightField (extractedImage zeroVolume axisGeometry) 128 255 (clampMaxScan 10).1
          smallDomain true).value p = 10 :=
  ⟨by decide, fun p hp =>
    ((background_fill_correct (extractedImage zeroVolume axisGeometry) 128 255 10 smallDomain
      p hp).2.2.2.2.1 (by decide)).2⟩

/-! ## The clamp of `maxScan` -/

/-- C4, monotone clamp: when the configured `--heightFieldMaxScan` exceeds 255, the
effective `maxScan` is 255, exactly one warning is emitted, and the whole computation
(every scan step, the depth encoding and the background fill) runs with 255. -/
theorem maxScan_clamp (opts : Options) (inputImage : Image3D) (geom : PlaneGeometry)
    (h : opts.heightFieldMaxScan > valueMax) :
    (clampMaxScan opts.heightFieldMaxScan).1 = 255 ∧
      (vol2heightfield opts inputImage geom).diagnostics = [Diagnostic.maxScanClamped 255] ∧
      (vol2heightfield opts inputImage geom).diagnostics.length = 1 ∧
      (vol2heightfield opts inputImage geom).resultingImage =
        heightField (extractedImage inputImage geom) opts.thresholdMin opts.thresholdMax 255
          (aDomain2D opts) opts.setBackgroundLastDepth := by
  have hc : clampMaxScan opts.heightFieldMaxScan = (255, [Diagnostic.maxScanClamped 255]) := by
    unfold clampMaxScan
    rw [if_pos h]
    rfl
  unfold vol2heightfield
  simp only [hc, List.length_singleton, and_self]

theorem maxScan_clamp_witness :
    (350 : Nat) > valueMax ∧
      (vol2heightfield deepScanOptions shellVolume axisGeometry).diagnostics.length = 1 :=
  ⟨by decide,
    (maxScan_clamp deepScanOptions shellVolume axisGeometry (by decide)).2.2.1⟩

/-! ## Write-once and the last hit depth -/

/-- C5, write-once and finality: after any number of depth steps no pixel has been
written twice by the scan loop and every written value is non-zero as a pixel value;
a pixel that is non-zero after `K` steps holds the same value after any later number
of steps `K2`; and a raster pixel with no in-window sample at the steps done so far
is still 0. -/
theorem write_once_final (ext : Nat → Point2D → Nat) (minTh maxTh : Int) (m : Nat)
    (d : Domain2D) (K K2 : Nat) (hKK : K ≤ K2) (hK2 : K2 ≤ (clampMaxScan m).1) (p : Point2D) :
    ((scanAfter ext minTh maxTh (clampMaxScan m).1 d K2).writes.map WriteEvent.pixel).Nodup ∧
      (∀ e, e ∈ (scanAfter ext minTh maxTh (clampMaxScan m).1 d K2).writes →
        toValue e.value ≠ 0) ∧
      ((scanAfter ext minTh maxTh (clampMaxScan m).1 d K).resultingImage.value p ≠ 0 →
        (scanAfter ext minTh maxTh (clampMaxScan m).1 d K2).resultingImage.value p =
          (scanAfter ext minTh maxTh (clampMaxScan m).1 d K).resultingImage.value p) ∧
      (p ∈ d.points →
        ((scanAfter ext minTh maxTh (clampMaxScan m).1 d K).resultingImage.value p = 0 ↔
          ¬ ∃ k, k < K ∧ Hit ext minTh maxTh k p)) := by
  have hM := clampMaxScan_le m
  have hK : K ≤ (clampMaxScan m).1 := le_trans hKK hK2
  refine ⟨?_, ?_, ?_, ?_⟩
  · exact (scanLoop_writesOnce ext minTh maxTh (clampMaxScan m).1 hM d.points (scanInit d) rfl
      K2 hK2).1
  · intro e he
    obtain ⟨-, h2, -, h4⟩ := (scanLoop_writes ext minTh maxTh (clampMaxScan m).1 hM d.points
      (scanInit d) (scanInit_value d) rfl K2 hK2 e).1 he
    have h5 : e.k < (clampMaxScan m).1 := lt_of_lt_of_le h2 hK2
    unfold valueMax at hM
    unfold toValue
    omega
  · intro hnz
    obtain ⟨k0, hk0, hp, hfirst, hval⟩ :=
      scanAfter_value_of_ne_zero ext minTh maxTh m d K hK p hnz
    rw [hval]
    exact (scanLoop_value ext minTh maxTh (clampMaxScan m).1 hM d.points (scanInit d)
      (scanInit_value d) K2 hK2 p).2 k0 hp (lt_of_lt_of_le hk0 hKK) hfirst
  · intro hp
    have h := (scanLoop_value ext minTh maxTh (clampMaxScan m).1 hM d.points (scanInit d)
      (scanInit_value d) K hK p).1
    constructor
    · intro hz hex
      exact h.1 hz ⟨hp, hex⟩
    · intro hno
      exact h.2 (fun hh => hno hh.2)

theorem write_once_final_witness :
    (1 ≤ 10 ∧ 10 ≤ (clampMaxScan 10).1) ∧
      (scanAfter (extractedImage faceVolume axisGeometry) 128 255 (clampMaxScan 10).1
        smallDomain 1).resultingImage.value ⟨1, 0⟩ ≠ 0 ∧
      (scanAfter (extractedImage faceVolume axisGeometry) 128 255 (clampMaxScan 10).1
        smallDomain 10).resultingImage.value ⟨1, 0⟩ =
      (scanAfter (extractedImage faceVolume axisGeometry) 128 255 (clampMaxScan 10).1
        smallDomain 1).resultingImage.value ⟨1, 0⟩ :=
  ⟨by decide, by decide,
    (write_once_final (extractedImage faceVolume axisGeometry) 128 255 10 smallDomain 1 10
      (by decide) (by decide) ⟨1, 0⟩).2.2.1 (by decide)⟩

/-- C6, last hit depth: from one depth step to the next `maxDepthFound` does not
decrease, and after every step it is the highest step so far at which a pixel of the
raster was filled (0 if none was), these steps being the first-hit steps of the
pixels. -/
theorem maxDepthFound_invariant (ext : Nat → Point2D → Nat) (minTh maxTh : Int) (m : Nat)
    (d : Domain2D) (K : Nat) (hK : K < (clampMaxScan m).1) :
    (scanAfter ext minTh maxTh (clampMaxScan m).1 d K).maxDepthFound ≤
        (scanAfter ext minTh maxTh (clampMaxScan m).1 d (K + 1)).maxDepthFound ∧
      IsLastHitDepth (scanAfter ext minTh maxTh (clampMaxScan m).1 d (K + 1)) ∧
      (∀ e, e ∈ (scanAfter ext minTh maxTh (clampMaxScan m).1 d (K + 1)).writes ↔
        e.pixel ∈ d.points ∧ e.k < K + 1 ∧ IsFirstHit ext minTh maxTh e.pixel e.k ∧
          e.value = (clampMaxScan m).1 - e.k) := by
  have hM := clampMaxScan_le m
  refine ⟨?_, ?_, ?_⟩
  · exact scanLoop_maxDepthFound_mono ext minTh maxTh (clampMaxScan m).1 hM d.points
      (scanInit d) (scanInit_value d) rfl K hK
  · exact scanAfter_isLastHitDepth ext minTh maxTh m d (K + 1) hK
  · intro e
    exact scanLoop_writes ext minTh maxTh (clampMaxScan m).1 hM d.points (scanInit d)
      (scanInit_value d) rfl (K + 1) hK e

theorem maxDepthFound_invariant_witness :
    5 < (clampMaxScan 10).1 ∧
      (scanAfter (extractedImage shellVolume axisGeometry) 128 255 (clampMaxScan 10).1
        smallDomain 5).maxDepthFound = 0 ∧
      (scanAfter (extractedImage shellVolume axisGeometry) 128 255 (clampMaxScan 10).1
        smallDomain 6).maxDepthFound = 5 ∧
      (scanAfter (extractedImage shellVolume axisGeometry) 128 255 (clampMaxScan 10).1
        smallDomain 5).maxDepthFound ≤
      (scanAfter (extractedImage shellVolume axisGeometry) 128 255 (clampMaxScan 10).1
        smallDomain (5 + 1)).maxDepthFound :=
  ⟨by decide, by decide, by decide,
    (maxDepthFound_invariant (extractedImage shellVolume axisGeometry) 128 255 10 smallDomain 5
      (by decide)).1⟩

/-! ## The depth encoding -/

/-- C7 as stated fails: on the 2x2x2 face volume with `maxScan = 10`, the pixel (1,0)
is first hit at step 0 and holds 10, the pixel (0,0) is never hit and holds 0, so the
two pixels hold different values in the raster. -/
theorem aliasing_counterexample :
    IsFirstHit (extractedImage faceVolume axisGeometry) 128 255 ⟨1, 0⟩ 0 ∧
      (¬ ∃ k, k < (clampMaxScan 10).1 ∧
        Hit (extractedImage faceVolume axisGeometry) 128 255 k ⟨0, 0⟩) ∧
      (heightField (extractedImage faceVolume axisGeometry) 128 255 (clampMaxScan 10).1
        smallDomain false).value ⟨1, 0⟩ = 10 ∧
      (heightField (extractedImage faceVolume axisGeometry) 128 255 (clampMaxScan 10).1
        smallDomain false).value ⟨0, 0⟩ = 0 ∧
      (heightField (extractedImage faceVolume axisGeometry) 128 255 (clampMaxScan 10).1
        smallDomain false).value ⟨1, 0⟩ ≠
      (heightField (extractedImage faceVolume axisGeometry) 128 255 (clampMaxScan 10).1
        smallDomain false).value ⟨0, 0⟩ := by
  decide

/-- C7 amended: a raster pixel whose first hit is at step 0 is stored with the
effective `maxScan`, which lies between 1 and 255, so it differs from the sentinel 0
that a never-hit raster pixel holds after the scan. -/
theorem first_step_hit_differs_from_sentinel (ext : Nat → Point2D → Nat) (minTh maxTh : Int)
    (m : Nat) (d : Domain2D) (p q : Point2D) (hp : p ∈ d.points)
    (hpos : 0 < (clampMaxScan m).1) (hhit : Hit ext minTh maxTh 0 p)
    (hno : ¬ ∃ k, k < (clampMaxScan m).1 ∧ Hit ext minTh maxTh k q) :
    (scan ext minTh maxTh (clampMaxScan m).1 d).resultingImage.value p = (clampMaxScan m).1 ∧
      1 ≤ (clampMaxScan m).1 ∧ (clampMaxScan m).1 ≤ 255 ∧
      (scan ext minTh maxTh (clampMaxScan m).1 d).resultingImage.value q = 0 ∧
      (heightField ext minTh maxTh (clampMaxScan m).1 d false).value p ≠
        (heightField ext minTh maxTh (clampMaxScan m).1 d false).value q := by
  have hM := clampMaxScan_le m
  have hvp := (scanLoop_value ext minTh maxTh (clampMaxScan m).1 hM d.points (scanInit d)
    (scanInit_value d) (clampMaxScan m).1 (le_refl _) p).2 0 hp hpos
    ⟨hhit, fun j hj => absurd hj (Nat.not_lt_zero j)⟩
  have hvq := (scanLoop_value ext minTh maxTh (clampMaxScan m).1 hM d.points (scanInit d)
    (scanInit_value d) (clampMaxScan m).1 (le_refl _) q).1.2 (fun hh => hno hh.2)
  have hvp2 : (scan ext minTh maxTh (clampMaxScan m).1 d).resultingImage.value p =
      (clampMaxScan m).1 := by
    rw [← Nat.sub_zero (clampMaxScan m).1]
    exact hvp
  have hvq2 : (scan ext minTh maxTh (clampMaxScan m).1 d).resultingImage.value q = 0 := hvq
  refine ⟨hvp2, hpos, hM, hvq2, ?_⟩
  have hout : heightField ext minTh maxTh (clampMaxScan m).1 d false =
      (scan ext minTh maxTh (clampMaxScan m).1 d).resultingImage := by
    unfold heightField
    simp
  rw [hout, hvp2, hvq2]
  exact Nat.pos_iff_ne_zero.1 hpos

theorem first_step_hit_differs_from_sentinel_witness :
    (heightField (extractedImage faceVolume axisGeometry) 128 255 (clampMaxScan 10).1
        smallDomain false).value ⟨1, 0⟩ ≠
      (heightField (extractedImage faceVolume axisGeometry) 128 255 (clampMaxScan 10).1
        smallDomain false).value ⟨0, 0⟩ :=
  (first_step_hit_differs_from_sentinel (extractedImage faceVolume axisGeometry) 128 255 10
    smallDomain ⟨1, 0⟩ ⟨0, 0⟩ (by decide) (by decide) (by decide) (by decide)).2.2.2.2

/-- C8, range fit: for every configured `maxScan`, the value passed to `setValue` at
initialisation is 0, each value passed by the scan loop is the true difference
`maxScan - k` (the unsigned subtraction does not wrap) and is at most 255, and so is
the value `maxScan - maxDepthFound` of the background fill; the conversion to the
8-bit pixel type leaves all of them unchanged, and every pixel of the output raster
is at most 255. -/
theorem stored_values_fit (ext : Nat → Point2D → Nat) (minTh maxTh : Int) (m : Nat)
    (d : Domain2D) (flag : Bool) :
    toValue 0 = 0 ∧
      (∀ e, e ∈ (scan ext minTh maxTh (clampMaxScan m).1 d).writes →
        e.value = uintSub (clampMaxScan m).1 e.k ∧
        (e.value : Int) = ((clampMaxScan m).1 : Int) - (e.k : Int) ∧
        e.value ≤ valueMax ∧ toValue e.value = e.value) ∧
      ((uintSub (clampMaxScan m).1
          (scan ext minTh maxTh (clampMaxScan m).1 d).maxDepthFound : Int) =
        ((clampMaxScan m).1 : Int) -
          ((scan ext minTh maxTh (clampMaxScan m).1 d).maxDepthFound : Int) ∧
        uintSub (clampMaxScan m).1
          (scan ext minTh maxTh (clampMaxScan m).1 d).maxDepthFound ≤ valueMax ∧
        toValue (uintSub (clampMaxScan m).1
          (scan ext minTh maxTh (clampMaxScan m).1 d).maxDepthFound) =
          uintSub (clampMaxScan m).1
            (scan ext minTh maxTh (clampMaxScan m).1 d).maxDepthFound) ∧
      (∀ p, (heightField ext minTh maxTh (clampMaxScan m).1 d flag).value p ≤ valueMax) := by
  have hM := clampMaxScan_le m
  have hle : (scan ext minTh maxTh (clampMaxScan m).1 d).maxDepthFound ≤ (clampMaxScan m).1 := by
    rcases (scanLoop_maxDepthFound ext minTh maxTh (clampMaxScan m).1 hM d.points (scanInit d)
      (scanInit_value d) rfl (clampMaxScan m).1 (le_refl _)).2 with h | ⟨h, -⟩
    · exact h ▸ Nat.zero_le _
    · exact Nat.le_of_lt h
  have hscan : ∀ p, (scan ext minTh maxTh (clampMaxScan m).1 d).resultingImage.value p ≤
      valueMax := by
    intro p
    by_cases hz : (scan ext minTh maxTh (clampMaxScan m).1 d).resultingImage.value p = 0
    · rw [hz]; exact Nat.zero_le _
    · obtain ⟨k0, -, -, -, hval⟩ :=
        scanAfter_value_of_ne_zero ext minTh maxTh m d (clampMaxScan m).1 (le_refl _) p hz
      have hval2 : (scan ext minTh maxTh (clampMaxScan m).1 d).resultingImage.value p =
          (clampMaxScan m).1 - k0 := hval
      rw [hval2]
      exact le_trans (Nat.sub_le _ _) hM
  refine ⟨rfl, ?_, ?_, ?_⟩
  · intro e he
    obtain ⟨-, h2, -, h4⟩ := (scanLoop_writes ext minTh maxTh (clampMaxScan m).1 hM d.points
      (scanInit d) (scanInit_value d) rfl (clampMaxScan m).1 (le_refl _) e).1 he
    refine ⟨?_, ?_, ?_, ?_⟩
    · rw [h4, uintSub_eq hM (Nat.le_of_lt h2)]
    · rw [h4]; omega
    · rw [h4]; exact le_trans (Nat.sub_le _ _) hM
    · rw [h4]
      unfold valueMax at hM
      unfold toValue
      omega
  · rw [uintSub_eq hM hle]
    refine ⟨by omega, le_trans (Nat.sub_le _ _) hM, ?_⟩
    unfold valueMax at hM
    unfold toValue
    omega
  · intro p
    unfold heightField
    cases flag
    · exact hscan p
    · simp only [if_true]
      rw [backgroundFill_value]
      split
      · rw [toValue_uintSub hM hle]
        exact le_trans (Nat.sub_le _ _) hM
      · exact hscan p

/-! ## Samples outside the volume -/

/-- C9 as stated fails: with the plane around (100,100,0) every sampled point is
outside the 2x2x2 corner volume, yet with the default thresholds (128, 255) the pixel
(0,0) passes the threshold test at step 0 and the raster holds 10 there; with the
thresholds (-1, 256) the test passes on the all-zero volume as well. -/
theorem out_of_domain_counterexample :
    (∀ k, k < (clampMaxScan 10).1 → ∀ p, p ∈ smallDomain.points →
        cornerVolume.domain.isInside (farGeometry k p) = false) ∧
      Hit (extractedImage cornerVolume farGeometry) 128 255 0 ⟨0, 0⟩ ∧
      (scan (extractedImage cornerVolume farGeometry) 128 255 (clampMaxScan 10).1
        smallDomain).resultingImage.value ⟨0, 0⟩ = 10 ∧
      zeroVolume.domain.isInside (farGeometry 0 ⟨0, 0⟩) = false ∧
      Hit (extractedImage zeroVolume farGeometry) (-1) 256 0 ⟨0, 0⟩ := by
  decide

/-- C9 amended: when the point computed for a pixel at step `k` lies outside the
domain of the volume, the sample is the value of the volume at the lower bound of its
domain, so the threshold test gives there what it gives on that value; in particular,
if no sampled point of any step lies inside the volume and the value at the lower
bound is not strictly inside the threshold window, the whole raster is 0 after the
scan. -/
theorem out_of_domain_sample (inputImage : Image3D) (geom : PlaneGeometry) (minTh maxTh : Int)
    (m : Nat) (d : Domain2D) :
    (∀ k p, inputImage.domain.isInside (geom k p) = false →
        extractedImage inputImage geom k p = inputImage.value inputImage.domain.lowerBound ∧
        inThresholds minTh maxTh (extractedImage inputImage geom k p) =
          inThresholds minTh maxTh (inputImage.value inputImage.domain.lowerBound)) ∧
      ((∀ k, k < (clampMaxScan m).1 → ∀ p, p ∈ d.points →
          inputImage.domain.isInside (geom k p) = false) →
        inThresholds minTh maxTh (inputImage.value inputImage.domain.lowerBound) = false →
        ∀ q, (scan (extractedImage inputImage geom) minTh maxTh (clampMaxScan m).1
          d).resultingImage.value q = 0) := by
  have hread : ∀ k p, inputImage.domain.isInside (geom k p) = false →
      extractedImage inputImage geom k p = inputImage.value inputImage.domain.lowerBound := by
    intro k p hout
    unfold extractedImage Point2DEmbedderIn3D
    rw [hout]
    rfl
  refine ⟨fun k p hout => ⟨hread k p hout, by rw [hread k p hout]⟩, ?_⟩
  intro hall hlow q
  apply (scanLoop_value (extractedImage inputImage geom) minTh maxTh (clampMaxScan m).1
    (clampMaxScan_le m) d.points (scanInit d) (scanInit_value d) (clampMaxScan m).1
    (le_refl _) q).1.2
  rintro ⟨hq, k, hk, hhit⟩
  have h1 := (inThresholds_iff (extractedImage inputImage geom) minTh maxTh k q).2 hhit
  rw [hread k q (hall k hk q hq), hlow] at h1
  exact Bool.false_ne_true h1

theorem out_of_domain_sample_witness :
    (∀ k, k < (clampMaxScan 10).1 → ∀ p, p ∈ smallDomain.points →
        zeroVolume.domain.isInside (farGeometry k p) = false) ∧
      inThresholds 128 255 (zeroVolume.value zeroVolume.domain.lowerBound) = false ∧
      (scan (extractedImage zeroVolume farGeometry) 128 255 (clampMaxScan 10).1
        smallDomain).resultingImage.value ⟨1, 1⟩ = 0 :=
  ⟨by decide, by decide,
    (out_of_domain_sample zeroVolume farGeometry 128 255 10 smallDomain).2
      (by decide) (by decide) ⟨1, 1⟩⟩

/-! ## The raster domain -/

theorem toCoordinate_of_lt {n : Nat} (h : n < 2147483648) : toCoordinate n = (n : Int) := by
  unfold toCoordinate
  have h1 : n % 4294967296 = n := Nat.mod_eq_of_lt (by omega)
  rw [h1, if_pos h]

theorem points_length (d : Domain2D) :
    d.points.length =
      (d.upperBound.y - d.lowerBound.y + 1).toNat * (d.upperBound.x - d.lowerBound.x + 1).toNat := by
  unfold Domain2D.points
  generalize (d.upperBound.y - d.lowerBound.y + 1).toNat = a
  generalize (d.upperBound.x - d.lowerBound.x + 1).toNat = b
  induction a with
  | zero => simp
  | succ a ih =>
    rw [List.range_succ, List.flatMap_append, List.length_append, ih]
    simp [Nat.succ_mul]

/-- The raster built for `--width w --height h` below 2^31 has `(w + 1) * (h + 1)`
pixels, its corners being (0,0) and (h, w). -/
theorem aDomain2D_size (opts : Options) (hw : opts.width < 2147483648)
    (hh : opts.height < 2147483648) :
    (aDomain2D opts).upperBound = ⟨(opts.height : Int), (opts.width : Int)⟩ ∧
      (aDomain2D opts).points.length = (opts.width + 1) * (opts.height + 1) := by
  have hb : (aDomain2D opts).upperBound = ⟨(opts.height : Int), (opts.width : Int)⟩ := by
    unfold aDomain2D
    simp only [toCoordinate_of_lt hw, toCoordinate_of_lt hh]
  refine ⟨hb, ?_⟩
  rw [points_length, hb]
  have hl : (aDomain2D opts).lowerBound = ⟨0, 0⟩ := rfl
  rw [hl]
  simp only [sub_zero]
  have h1 : ((opts.width : Int) + 1).toNat = opts.width + 1 := by omega
  have h2 : ((opts.height : Int) + 1).toNat = opts.height + 1 := by omega
  rw [h1, h2]

/-- C10 at `--width 2 --height 3`: the raster domain runs from (0,0) to (3,2), both
included; it has 12 pixels, the first coordinate ranges over 0..3 and the second over
0..2, and this is the domain of the raster that is written. -/
theorem raster_domain_width2_height3 :
    (aDomain2D rectOptions).upperBound = ⟨3, 2⟩ ∧
      (aDomain2D rectOptions).points.length = 12 ∧
      (⟨3, 2⟩ : Point2D) ∈ (aDomain2D rectOptions).points ∧
      (∀ p, p ∈ (aDomain2D rectOptions).points → 0 ≤ p.x ∧ p.x ≤ 3 ∧ 0 ≤ p.y ∧ p.y ≤ 2) ∧
      (vol2heightfield rectOptions zeroVolume axisGeometry).resultingImage.domain.upperBound =
        ⟨3, 2⟩ := by
  decide

/-! ## The threshold window -/

theorem not_hit_of_empty_window (ext : Nat → Point2D → Nat) (minTh maxTh : Int)
    (h : minTh ≥ maxTh) (k : Nat) (p : Point2D) : ¬ Hit ext minTh maxTh k p := by
  unfold Hit
  omega

/-- C12, empty threshold window: when `thresholdMin >= thresholdMax`, whatever the
volume, the sampler and `maxScan`, the scan loop writes no pixel, the raster is 0
everywhere after the scan and `maxDepthFound` is still 0; the run ends like any other,
its only diagnostics being those of the clamp of `maxScan`. -/
theorem empty_window_no_write (opts : Options) (inputImage : Image3D) (geom : PlaneGeometry)
    (h : opts.thresholdMin ≥ opts.thresholdMax) :
    (scan (extractedImage inputImage geom) opts.thresholdMin opts.thresholdMax
        (clampMaxScan opts.heightFieldMaxScan).1 (aDomain2D opts)).writes = [] ∧
      (∀ q, (scan (extractedImage inputImage geom) opts.thresholdMin opts.thresholdMax
        (clampMaxScan opts.heightFieldMaxScan).1 (aDomain2D opts)).resultingImage.value q = 0) ∧
      (scan (extractedImage inputImage geom) opts.thresholdMin opts.thresholdMax
        (clampMaxScan opts.heightFieldMaxScan).1 (aDomain2D opts)).maxDepthFound = 0 ∧
      (vol2heightfield opts inputImage geom).diagnostics =
        (clampMaxScan opts.heightFieldMaxScan).2 ∧
      (opts.heightFieldMaxScan ≤ valueMax →
        (vol2heightfield opts inputImage geom).diagnostics = []) := by
  have hM := clampMaxScan_le opts.heightFieldMaxScan
  have hno := not_hit_of_empty_window (extractedImage inputImage geom) opts.thresholdMin
    opts.thresholdMax h
  refine ⟨?_, ?_, ?_, rfl, ?_⟩
  · apply List.eq_nil_iff_forall_not_mem.2
    intro e he
    have h1 := (scanLoop_writes (extractedImage inputImage geom) opts.thresholdMin
      opts.thresholdMax (clampMaxScan opts.heightFieldMaxScan).1 hM (aDomain2D opts).points
      (scanInit (aDomain2D opts)) (scanInit_value (aDomain2D opts)) rfl
      (clampMaxScan opts.heightFieldMaxScan).1 (le_refl _) e).1 he
    exact hno e.k e.pixel h1.2.2.1.1
  · intro q
    apply (scanLoop_value (extractedImage inputImage geom) opts.thresholdMin
      opts.thresholdMax (clampMaxScan opts.heightFieldMaxScan).1 hM (aDomain2D opts).points
      (scanInit (aDomain2D opts)) (scanInit_value (aDomain2D opts))
      (clampMaxScan opts.heightFieldMaxScan).1 (le_refl _) q).1.2
    rintro ⟨-, k, -, hhit⟩
    exact hno k q hhit
  · rcases (scanLoop_maxDepthFound (extractedImage inputImage geom) opts.thresholdMin
      opts.thresholdMax (clampMaxScan opts.heightFieldMaxScan).1 hM (aDomain2D opts).points
      (scanInit (aDomain2D opts)) (scanInit_value (aDomain2D opts)) rfl
      (clampMaxScan opts.heightFieldMaxScan).1 (le_refl _)).2 with h0 | ⟨-, p, -, hfirst⟩
    · exact h0
    · exact absurd hfirst.1 (hno _ p)
  · intro hle
    unfold vol2heightfield clampMaxScan
    simp only
    rw [if_neg (Nat.not_lt.2 hle)]

theorem empty_window_no_write_witness :
    emptyWindowOptions.thresholdMin ≥ emptyWindowOptions.thresholdMax ∧
      (scan (extractedImage brightVolume axisGeometry) emptyWindowOptions.thresholdMin
        emptyWindowOptions.thresholdMax (clampMaxScan emptyWindowOptions.heightFieldMaxScan).1
        (aDomain2D emptyWindowOptions)).writes = [] :=
  ⟨by decide, (empty_window_no_write emptyWindowOptions brightVolume axisGeometry (by decide)).1⟩

/-- C16, monotonicity in the threshold window: for a fixed sample function and
`maxScan`, when `minTh2 <= minTh` and `maxTh <= maxTh2`, every pixel holds after the
scan with the window `(minTh2, maxTh2)` a value greater than or equal to the one it
holds with the window `(minTh, maxTh)`. -/
theorem threshold_window_monotone (ext : Nat → Point2D → Nat) (minTh maxTh minTh2 maxTh2 : Int)
    (m : Nat) (d : Domain2D) (hmin : minTh2 ≤ minTh) (hmax : maxTh ≤ maxTh2) (p : Point2D) :
    (scan ext minTh maxTh (clampMaxScan m).1 d).resultingImage.value p ≤
      (scan ext minTh2 maxTh2 (clampMaxScan m).1 d).resultingImage.value p := by
  have hM := clampMaxScan_le m
  by_cases hz : (scan ext minTh maxTh (clampMaxScan m).1 d).resultingImage.value p = 0
  · rw [hz]
    exact Nat.zero_le _
  · obtain ⟨k0, hk0, hp, hfirst, hval⟩ :=
      scanAfter_value_of_ne_zero ext minTh maxTh m d (clampMaxScan m).1 (le_refl _) p hz
    have hval1 : (scan ext minTh maxTh (clampMaxScan m).1 d).resultingImage.value p =
        (clampMaxScan m).1 - k0 := hval
    have hwide : Hit ext minTh2 maxTh2 k0 p :=
      ⟨lt_of_le_of_lt hmin hfirst.1.1, lt_of_lt_of_le hfirst.1.2 hmax⟩
    obtain ⟨k1, hk1, hfirst1⟩ :=
      exists_isFirstHit ext minTh2 maxTh2 p (k0 + 1) ⟨k0, Nat.lt_succ_self k0, hwide⟩
    have hk1M : k1 < (clampMaxScan m).1 := lt_of_le_of_lt (Nat.le_of_lt_succ hk1) hk0
    have hval2 : (scan ext minTh2 maxTh2 (clampMaxScan m).1 d).resultingImage.value p =
        (clampMaxScan m).1 - k1 :=
      (scanLoop_value ext minTh2 maxTh2 (clampMaxScan m).1 hM d.points (scanInit d)
        (scanInit_value d) (clampMaxScan m).1 (le_refl _) p).2 k1 hp hk1M hfirst1
    rw [hval1, hval2]
    have := Nat.le_of_lt_succ hk1
    omega

theorem threshold_window_monotone_witness :
    ((-1 : Int) ≤ 128 ∧ (255 : Int) ≤ 255) ∧
      (scan (extractedImage faceVolume axisGeometry) 128 255 (clampMaxScan 10).1
        smallDomain).resultingImage.value ⟨0, 0⟩ = 0 ∧
      (scan (extractedImage faceVolume axisGeometry) (-1) 255 (clampMaxScan 10).1
        smallDomain).resultingImage.value ⟨0, 0⟩ = 10 ∧
      (scan (extractedImage faceVolume axisGeometry) 128 255 (clampMaxScan 10).1
        smallDomain).resultingImage.value ⟨0, 0⟩ ≤
      (scan (extractedImage faceVolume axisGeometry) (-1) 255 (clampMaxScan 10).1
        smallDomain).resultingImage.value ⟨0, 0⟩ :=
  ⟨by decide, by decide, by decide,
    threshold_window_monotone (extractedImage faceVolume axisGeometry) 128 255 (-1) 255 10
      smallDomain (by decide) (by decide) ⟨0, 0⟩⟩

/-! ## Decoding the stored values -/

/-- C15, written values are never zero and decode uniquely: with `M` the effective
`maxScan`, every value written by the scan loop at a step `k` is `M - k` with
`1 <= M - k <= M <= 255`, it is non-zero as an 8-bit pixel value, the pixel holds it
after the scan, its first-hit step is `M` minus the stored value, and two pixels
written at different steps hold different values. -/
theorem written_values_decode (ext : Nat → Point2D → Nat) (minTh maxTh : Int) (m : Nat)
    (d : Domain2D) (e : WriteEvent)
    (he : e ∈ (scan ext minTh maxTh (clampMaxScan m).1 d).writes) :
    e.value = (clampMaxScan m).1 - e.k ∧
      1 ≤ (clampMaxScan m).1 - e.k ∧ (clampMaxScan m).1 - e.k ≤ (clampMaxScan m).1 ∧
      (clampMaxScan m).1 ≤ 255 ∧
      toValue e.value ≠ 0 ∧
      (scan ext minTh maxTh (clampMaxScan m).1 d).resultingImage.value e.pixel =
        toValue e.value ∧
      IsFirstHit ext minTh maxTh e.pixel e.k ∧
      e.k = (clampMaxScan m).1 -
        (scan ext minTh maxTh (clampMaxScan m).1 d).resultingImage.value e.pixel ∧
      (∀ e2, e2 ∈ (scan ext minTh maxTh (clampMaxScan m).1 d).writes → e2.k ≠ e.k →
        (scan ext minTh maxTh (clampMaxScan m).1 d).resultingImage.value e2.pixel ≠
          (scan ext minTh maxTh (clampMaxScan m).1 d).resultingImage.value e.pixel) := by
  have hM := clampMaxScan_le m
  have hw := scanLoop_writes ext minTh maxTh (clampMaxScan m).1 hM d.points (scanInit d)
    (scanInit_value d) rfl (clampMaxScan m).1 (le_refl _)
  have hv := fun q => (scanLoop_value ext minTh maxTh (clampMaxScan m).1 hM d.points
    (scanInit d) (scanInit_value d) (clampMaxScan m).1 (le_refl _) q).2
  obtain ⟨h1, h2, h3, h4⟩ := (hw e).1 he
  have hval : (scan ext minTh maxTh (clampMaxScan m).1 d).resultingImage.value e.pixel =
      (clampMaxScan m).1 - e.k := hv e.pixel e.k h1 h2 h3
  have hM2 : (clampMaxScan m).1 ≤ 255 := hM
  have htv : toValue e.value = (clampMaxScan m).1 - e.k := by
    rw [h4]
    unfold toValue
    omega
  refine ⟨h4, by omega, Nat.sub_le _ _, hM2, ?_, ?_, h3, ?_, ?_⟩
  · rw [htv]
    omega
  · rw [htv, hval]
  · rw [hval]
    omega
  · intro e2 he2 hne
    obtain ⟨g1, g2, g3, -⟩ := (hw e2).1 he2
    have hval2 : (scan ext minTh maxTh (clampMaxScan m).1 d).resultingImage.value e2.pixel =
        (clampMaxScan m).1 - e2.k := hv e2.pixel e2.k g1 g2 g3
    rw [hval, hval2]
    omega

theorem written_values_decode_witness :
    ({ k := 5, pixel := ⟨1, 0⟩, value := 5 } : WriteEvent) ∈
        (scan (extractedImage shellVolume axisGeometry) 128 255 (clampMaxScan 10).1
          smallDomain).writes ∧
      (5 : Nat) = (clampMaxScan 10).1 -
        (scan (extractedImage shellVolume axisGeometry) 128 255 (clampMaxScan 10).1
          smallDomain).resultingImage.value ⟨1, 0⟩ :=
  ⟨by decide,
    (written_values_decode (extractedImage shellVolume axisGeometry) 128 255 10 smallDomain
      { k := 5, pixel := ⟨1, 0⟩, value := 5 } (by decide)).2.2.2.2.2.2.2.1⟩

/-! ## The background value -/

/-- C17, the background value is the raster minimum: when at least one pixel was
filled during the scan, `maxScan - maxDepthFound` is the value of some filled pixel
and is at most the value of every filled pixel; it is at least 1; after the
background fill every pixel of the raster is at least `maxScan - maxDepthFound`, and
a pixel that was 0 after the scan holds exactly this value, the one of a pixel first
hit at the deepest hit step. -/
theorem background_value_is_minimum (ext : Nat → Point2D → Nat) (minTh maxTh : Int) (m : Nat)
    (d : Domain2D) (h : (scan ext minTh maxTh (clampMaxScan m).1 d).writes ≠ []) :
    (∃ e, e ∈ (scan ext minTh maxTh (clampMaxScan m).1 d).writes ∧
        e.k = (scan ext minTh maxTh (clampMaxScan m).1 d).maxDepthFound ∧
        (scan ext minTh maxTh (clampMaxScan m).1 d).resultingImage.value e.pixel =
          (clampMaxScan m).1 - (scan ext minTh maxTh (clampMaxScan m).1 d).maxDepthFound) ∧
      (∀ e, e ∈ (scan ext minTh maxTh (clampMaxScan m).1 d).writes →
        (clampMaxScan m).1 - (scan ext minTh maxTh (clampMaxScan m).1 d).maxDepthFound ≤
          (scan ext minTh maxTh (clampMaxScan m).1 d).resultingImage.value e.pixel) ∧
      1 ≤ (clampMaxScan m).1 - (scan ext minTh maxTh (clampMaxScan m).1 d).maxDepthFound ∧
      (∀ p, p ∈ d.points →
        (clampMaxScan m).1 - (scan ext minTh maxTh (clampMaxScan m).1 d).maxDepthFound ≤
          (heightField ext minTh maxTh (clampMaxScan m).1 d true).value p) ∧
      (∀ p, p ∈ d.points →
        (scan ext minTh maxTh (clampMaxScan m).1 d).resultingImage.value p = 0 →
        (heightField ext minTh maxTh (clampMaxScan m).1 d true).value p =
          (clampMaxScan m).1 - (scan ext minTh maxTh (clampMaxScan m).1 d).maxDepthFound) := by
  have hM := clampMaxScan_le m
  have hw := scanLoop_writes ext minTh maxTh (clampMaxScan m).1 hM d.points (scanInit d)
    (scanInit_value d) rfl (clampMaxScan m).1 (le_refl _)
  have hv := fun q => (scanLoop_value ext minTh maxTh (clampMaxScan m).1 hM d.points
    (scanInit d) (scanInit_value d) (clampMaxScan m).1 (le_refl _) q).2
  have hlast : IsLastHitDepth (scan ext minTh maxTh (clampMaxScan m).1 d) :=
    scanAfter_isLastHitDepth ext minTh maxTh m d (clampMaxScan m).1 (le_refl _)
  obtain ⟨e0, he0, hk0⟩ := hlast.2.2 h
  obtain ⟨a1, a2, a3, -⟩ := (hw e0).1 he0
  have hlt : (scan ext minTh maxTh (clampMaxScan m).1 d).maxDepthFound < (clampMaxScan m).1 := by
    rw [← hk0]
    exact a2
  have hval0 : (scan ext minTh maxTh (clampMaxScan m).1 d).resultingImage.value e0.pixel =
      (clampMaxScan m).1 - e0.k := hv e0.pixel e0.k a1 a2 a3
  have hfill : ∀ q, (heightField ext minTh maxTh (clampMaxScan m).1 d true).value q =
      if q ∈ d.points ∧ (scan ext minTh maxTh (clampMaxScan m).1 d).resultingImage.value q = 0
      then toValue (uintSub (clampMaxScan m).1
        (scan ext minTh maxTh (clampMaxScan m).1 d).maxDepthFound)
      else (scan ext minTh maxTh (clampMaxScan m).1 d).resultingImage.value q := by
    intro q
    unfold heightField
    simp only [if_true]
    exact backgroundFill_value _ _ _ _ q
  have hbg : toValue (uintSub (clampMaxScan m).1
      (scan ext minTh maxTh (clampMaxScan m).1 d).maxDepthFound) =
      (clampMaxScan m).1 - (scan ext minTh maxTh (clampMaxScan m).1 d).maxDepthFound :=
    toValue_uintSub hM (Nat.le_of_lt hlt)
  refine ⟨⟨e0, he0, hk0, by rw [hval0, hk0]⟩, ?_, by omega, ?_, ?_⟩
  · intro e he
    obtain ⟨b1, b2, b3, -⟩ := (hw e).1 he
    have hval : (scan ext minTh maxTh (clampMaxScan m).1 d).resultingImage.value e.pixel =
        (clampMaxScan m).1 - e.k := hv e.pixel e.k b1 b2 b3
    have hle := hlast.1 e he
    rw [hval]
    omega
  · intro p hp
    rw [hfill p]
    split
    · rw [hbg]
    · rename_i hcond
      have hnz : (scan ext minTh maxTh (clampMaxScan m).1 d).resultingImage.value p ≠ 0 :=
        fun hz => hcond ⟨hp, hz⟩
      obtain ⟨e, he, hpe⟩ := scanAfter_written_of_ne_zero ext minTh maxTh m d
        (clampMaxScan m).1 (le_refl _) p hnz
      have he2 : e ∈ (scan ext minTh maxTh (clampMaxScan m).1 d).writes := he
      obtain ⟨b1, b2, b3, -⟩ := (hw e).1 he2
      have hval : (scan ext minTh maxTh (clampMaxScan m).1 d).resultingImage.value e.pixel =
          (clampMaxScan m).1 - e.k := hv e.pixel e.k b1 b2 b3
      have hle := hlast.1 e he2
      rw [← hpe, hval]
      omega
  · intro p hp hz
    rw [hfill p, if_pos ⟨hp, hz⟩, hbg]

theorem background_value_is_minimum_witness :
    (scan (extractedImage faceVolume axisGeometry) 128 255 (clampMaxScan 10).1
        smallDomain).writes ≠ [] ∧
      (scan (extractedImage faceVolume axisGeometry) 128 255 (clampMaxScan 10).1
        smallDomain).maxDepthFound = 0 ∧
      ∀ p, p ∈ smallDomain.points →
        (clampMaxScan 10).1 - (scan (extractedImage faceVolume axisGeometry) 128 255
            (clampMaxScan 10).1 smallDomain).maxDepthFound ≤
          (heightField (extractedImage faceVolume axisGeometry) 128 255 (clampMaxScan 10).1
            smallDomain true).value p :=
  ⟨by decide, by decide,
    (background_value_is_minimum (extractedImage faceVolume axisGeometry) 128 255 10
      smallDomain (by decide)).2.2.2.1⟩

/-! ## The order of the pixels in the inner loop -/

theorem Image2D.eq_of_domain_value (a b : Image2D) (hd : a.domain = b.domain)
    (hv : ∀ p, a.value p = b.value p) : a = b := by
  cases a
  cases b
  simp only [Image2D.mk.injEq]
  exact ⟨hd, funext hv⟩

theorem scanStep_domain (ext : Nat → Point2D → Nat) (minTh maxTh : Int) (M k : Nat)
    (pts : List Point2D) (s : ScanState) :
    (scanStep ext minTh maxTh M pts s k).resultingImage.domain = s.resultingImage.domain := by
  unfold scanStep
  induction pts generalizing s with
  | nil => rfl
  | cons q pts ih =>
    rw [List.foldl_cons, ih]
    by_cases hq : s.resultingImage.value q = 0 ∧ Hit ext minTh maxTh k q
    · rw [scanPixel_hit ext minTh maxTh M k s q hq]
      rfl
    · rw [scanPixel_skip ext minTh maxTh M k s q hq]

/-- One depth step run on two states with the same raster and the same
`maxDepthFound`, over two lists with the same pixels, gives the same raster and the
same `maxDepthFound`. -/
theorem scanStep_congr (ext : Nat → Point2D → Nat) (minTh maxTh : Int) (M k : Nat)
    (hM : M ≤ valueMax) (hk : k < M) (pts pts2 : List Point2D) (s s2 : ScanState)
    (hmem : ∀ p, p ∈ pts ↔ p ∈ pts2) (himg : s.resultingImage = s2.resultingImage)
    (hdepth : s.maxDepthFound = s2.maxDepthFound) :
    (scanStep ext minTh maxTh M pts s k).resultingImage =
        (scanStep ext minTh maxTh M pts2 s2 k).resultingImage ∧
      (scanStep ext minTh maxTh M pts s k).maxDepthFound =
        (scanStep ext minTh maxTh M pts2 s2 k).maxDepthFound := by
  refine ⟨?_, ?_⟩
  · apply Image2D.eq_of_domain_value
    · rw [scanStep_domain, scanStep_domain, himg]
    · intro p
      rw [scanStep_value ext minTh maxTh M k hM hk, scanStep_value ext minTh maxTh M k hM hk,
        himg]
      simp only [hmem p]
  · rw [scanStep_maxDepthFound ext minTh maxTh M k hM hk,
      scanStep_maxDepthFound ext minTh maxTh M k hM hk, himg, hdepth]
    simp only [hmem]

theorem scanLoopOrdered_succ (ext : Nat → Point2D → Nat) (minTh maxTh : Int) (M : Nat)
    (order : Nat → List Point2D) (s : ScanState) (K : Nat) :
    scanLoopOrdered ext minTh maxTh M order s (K + 1) =
      scanStep ext minTh maxTh M (order K) (scanLoopOrdered ext minTh maxTh M order s K) K := by
  unfold scanLoopOrdered
  rw [List.range_succ, List.foldl_append]
  rfl

theorem scanLoopOrdered_congr (ext : Nat → Point2D → Nat) (minTh maxTh : Int) (M : Nat)
    (hM : M ≤ valueMax) (order : Nat → List Point2D) (pts : List Point2D) (s : ScanState)
    (hmem : ∀ k p, p ∈ order k ↔ p ∈ pts) (K : Nat) (hK : K ≤ M) :
    (scanLoopOrdered ext minTh maxTh M order s K).resultingImage =
        (scanLoop ext minTh maxTh M pts s K).resultingImage ∧
      (scanLoopOrdered ext minTh maxTh M order s K).maxDepthFound =
        (scanLoop ext minTh maxTh M pts s K).maxDepthFound := by
  induction K with
  | zero => exact ⟨rfl, rfl⟩
  | succ K ih =>
    obtain ⟨h1, h2⟩ := ih (Nat.le_of_succ_le hK)
    rw [scanLoopOrdered_succ, scanLoop_succ]
    exact scanStep_congr ext minTh maxTh M K hM hK (order K) pts _ _ (hmem K) h1 h2

/-- C14, pixel-order independence: for a fixed depth step, started from any state, and
for the whole scan, the raster and `maxDepthFound` obtained when the inner loop visits
the pixels of the raster domain in any order (possibly a different one at each step)
are those obtained with the order of the domain iterator. -/
theorem pixel_order_independent (ext : Nat → Point2D → Nat) (minTh maxTh : Int) (m : Nat)
    (d : Domain2D) (order : Nat → List Point2D) (horder : ∀ k, (order k).Perm d.points) :
    (∀ k s, k < (clampMaxScan m).1 →
        (scanStep ext minTh maxTh (clampMaxScan m).1 (order k) s k).resultingImage =
          (scanStep ext minTh maxTh (clampMaxScan m).1 d.points s k).resultingImage ∧
        (scanStep ext minTh maxTh (clampMaxScan m).1 (order k) s k).maxDepthFound =
          (scanStep ext minTh maxTh (clampMaxScan m).1 d.points s k).maxDepthFound) ∧
      (scanLoopOrdered ext minTh maxTh (clampMaxScan m).1 order (scanInit d)
          (clampMaxScan m).1).resultingImage =
        (scan ext minTh maxTh (clampMaxScan m).1 d).resultingImage ∧
      (scanLoopOrdered ext minTh maxTh (clampMaxScan m).1 order (scanInit d)
          (clampMaxScan m).1).maxDepthFound =
        (scan ext minTh maxTh (clampMaxScan m).1 d).maxDepthFound := by
  have hM := clampMaxScan_le m
  have hmem : ∀ k p, p ∈ order k ↔ p ∈ d.points := fun k p => (horder k).mem_iff
  refine ⟨?_, ?_⟩
  · intro k s hk
    exact scanStep_congr ext minTh maxTh (clampMaxScan m).1 k hM hk (order k) d.points s s
      (hmem k) rfl rfl
  · exact scanLoopOrdered_congr ext minTh maxTh (clampMaxScan m).1 hM order d.points
      (scanInit d) hmem (clampMaxScan m).1 (le_refl _)

theorem pixel_order_independent_witness :
    (smallDomain.points.reverse).Perm smallDomain.points ∧
      (scanLoopOrdered (extractedImage shellVolume axisGeometry) 128 255 (clampMaxScan 10).1
          (fun _ => smallDomain.points.reverse) (scanInit smallDomain)
          (clampMaxScan 10).1).maxDepthFound =
        (scan (extractedImage shellVolume axisGeometry) 128 255 (clampMaxScan 10).1
          smallDomain).maxDepthFound :=
  ⟨List.reverse_perm _,
    (pixel_order_independent (extractedImage shellVolume axisGeometry) 128 255 10 smallDomain
      (fun _ => smallDomain.points.reverse) (fun _ => List.reverse_perm _)).2.2⟩

/-! ## The block write of `writePixel` -/

theorem foldlM_range_inv {σ : Type} (step : σ → Nat → Option σ) (P : Nat → σ → Prop)
    (init : σ) (n : Nat) (h0 : P 0 init)
    (hstep : ∀ i st, i < n → P i st → ∃ st2, step st i = some st2 ∧ P (i + 1) st2) :
    ∃ st, (List.range n).foldlM step init = some st ∧ P n st := by
  induction n with
  | zero => exact ⟨init, rfl, h0⟩
  | succ n ih =>
    obtain ⟨st, hst, hP⟩ := ih (fun i st hi h => hstep i st (Nat.lt_succ_of_lt hi) h)
    obtain ⟨st2, hst2, hP2⟩ := hstep n st (Nat.lt_succ_self n) hP
    refine ⟨st2, ?_, hP2⟩
    rw [List.range_succ, List.foldlM_append, hst]
    simp [hst2]

theorem wrapCoordinate_of_range {z : Int} (h1 : -2147483648 ≤ z) (h2 : z < 2147483648) :
    wrapCoordinate z = z := by
  unfold wrapCoordinate
  omega

theorem isInside_iff (d : Domain2D) (p : Point2D) :
    d.isInside p = true ↔
      d.lowerBound.x ≤ p.x ∧ p.x ≤ d.upperBound.x ∧ d.lowerBound.y ≤ p.y ∧ p.y ≤ d.upperBound.y := by
  unfold Domain2D.isInside
  simp only [Bool.and_eq_true, decide_eq_true_eq]
  tauto

theorem setValue_of_inside {Value : Type} (image : Image Value) (p : Point2D) (v : Value)
    (h : image.domain.isInside p = true) :
    image.setValue p v =
      some { domain := image.domain, value := fun q => if q = p then v else image.value q } := by
  unfold Image.setValue
  rw [if_pos h]

/-- A double loop of `setValue` calls at points of the domain succeeds, keeps the
domain, puts the value at the points visited and leaves the other points unchanged. -/
theorem fillBlock_spec {Value : Type} (image : Image Value) (val : Value)
    (f : Nat → Nat → Point2D) (n : Nat)
    (hin : ∀ x y, x < n → y < n → image.domain.isInside (f x y) = true) :
    ∃ result,
      (List.range n).foldlM (fun (img : Image Value) (y : Nat) =>
        (List.range n).foldlM (fun (im : Image Value) (x : Nat) =>
          im.setValue (f x y) val) img) image = some result ∧
      result.domain = image.domain ∧
      ∀ r, ((∃ y x, y < n ∧ x < n ∧ r = f x y) → result.value r = val) ∧
        ((¬ ∃ y x, y < n ∧ x < n ∧ r = f x y) → result.value r = image.value r) := by
  apply foldlM_range_inv
    (fun (img : Image Value) (y : Nat) =>
      (List.range n).foldlM (fun (im : Image Value) (x : Nat) => im.setValue (f x y) val) img)
    (fun j im => im.domain = image.domain ∧
      ∀ r, ((∃ y x, y < j ∧ x < n ∧ r = f x y) → im.value r = val) ∧
        ((¬ ∃ y x, y < j ∧ x < n ∧ r = f x y) → im.value r = image.value r))
  · refine ⟨rfl, fun r => ⟨?_, fun _ => rfl⟩⟩
    rintro ⟨y, x, hy, -, -⟩
    exact absurd hy (Nat.not_lt_zero y)
  · intro j img hj hP
    have hrow := foldlM_range_inv
      (fun (im : Image Value) (x : Nat) => im.setValue (f x j) val)
      (fun i im => im.domain = image.domain ∧
        ∀ r, (((∃ y x, y < j ∧ x < n ∧ r = f x y) ∨ ∃ x, x < i ∧ r = f x j) →
            im.value r = val) ∧
          ((¬ ((∃ y x, y < j ∧ x < n ∧ r = f x y) ∨ ∃ x, x < i ∧ r = f x j)) →
            im.value r = image.value r))
      img n ?_ ?_
    · obtain ⟨st, hst, hd, hv⟩ := hrow
      refine ⟨st, hst, hd, fun r => ⟨?_, ?_⟩⟩
      · rintro ⟨y, x, hy, hx, hr⟩
        apply (hv r).1
        rcases Nat.lt_succ_iff_lt_or_eq.1 hy with hlt | heq
        · exact Or.inl ⟨y, x, hlt, hx, hr⟩
        · exact Or.inr ⟨x, hx, heq ▸ hr⟩
      · intro hno
        apply (hv r).2
        rintro (⟨y, x, hy, hx, hr⟩ | ⟨x, hx, hr⟩)
        · exact hno ⟨y, x, Nat.lt_succ_of_lt hy, hx, hr⟩
        · exact hno ⟨j, x, Nat.lt_succ_self j, hx, hr⟩
    · refine ⟨hP.1, fun r => ⟨?_, ?_⟩⟩
      · rintro (h | ⟨x, hx, -⟩)
        · exact (hP.2 r).1 h
        · exact absurd hx (Nat.not_lt_zero x)
      · intro hno
        exact (hP.2 r).2 (fun h => hno (Or.inl h))
    · intro i im hi hQ
      have hinside : im.domain.isInside (f i j) = true := by
        rw [hQ.1]
        exact hin i j hi hj
      refine ⟨_, setValue_of_inside im (f i j) val hinside, hQ.1, fun r => ⟨?_, ?_⟩⟩
      · intro h
        by_cases hr : r = f i j
        · simp [hr]
        · simp only [hr, if_false]
          apply (hQ.2 r).1
          rcases h with h | ⟨x, hx, hrx⟩
          · exact Or.inl h
          · rcases Nat.lt_succ_iff_lt_or_eq.1 hx with hlt | heq
            · exact Or.inr ⟨x, hlt, hrx⟩
            · exact absurd (heq ▸ hrx) hr
      · intro hno
        have hr : r ≠ f i j := fun hr => hno (Or.inr ⟨i, Nat.lt_succ_self i, hr⟩)
        simp only [hr, if_false]
        apply (hQ.2 r).2
        rintro (h | ⟨x, hx, hrx⟩)
        · exact hno (Or.inl h)
        · exact hno (Or.inr ⟨x, Nat.lt_succ_of_lt hx, hrx⟩)


/-- C13 as stated fails: on the 10x10 image with domain (0,0)..(9,9), the call
`writePixel(image, (5,5), 7, 2)` has `pixel_size >= 1`, but its block starts at
(10,10), a block point outside the image domain, so the first `setValue` is out of
range and no image with the block set to 7 results. -/
theorem writePixel_counterexample :
    (1 : Int) ≤ 2 ∧ InPixelBlock ⟨5, 5⟩ 2 ⟨10, 10⟩ ∧
      blankImage.domain.isInside ⟨10, 10⟩ = false ∧
      (writePixel blankImage ⟨5, 5⟩ 7 2).isSome = false :=
  ⟨by decide, ⟨0, 0, by decide, by decide, by decide, by decide, by decide⟩, by decide,
    by decide⟩

/-- C13 amended, the block write of `writePixel` on an image of sufficient size: for
`pixel_size >= 1` and an image whose domain (with 32-bit corners) contains every point
`pt * pixel_size + (x, y)` with `0 <= x, y < pixel_size`, `writePixel` returns an image
with the same domain that holds `val` at exactly these points and the former value at
every other point; for `pixel_size = 1` it is the single call
`image.setValue(pt, val)`. -/
theorem writePixel_block {Value : Type} (image : Image Value) (pt : Point2D) (val : Value)
    (pixel_size : Int) (hs : 1 ≤ pixel_size) (hrep : image.domain.Representable)
    (hfit : ∀ r, InPixelBlock pt pixel_size r → image.domain.isInside r = true) :
    ∃ result, writePixel image pt val pixel_size = some result ∧
      result.domain = image.domain ∧
      (∀ r, InPixelBlock pt pixel_size r → result.value r = val) ∧
      (∀ r, ¬ InPixelBlock pt pixel_size r → result.value r = image.value r) ∧
      (pixel_size = 1 → writePixel image pt val pixel_size = image.setValue pt val) := by
  have hn : ((pixel_size.toNat : Nat) : Int) = pixel_size := Int.toNat_of_nonneg (by omega)
  have hlow := (isInside_iff image.domain _).1
    (hfit { x := pt.x * pixel_size + 0, y := pt.y * pixel_size + 0 }
      ⟨0, 0, le_refl _, by omega, le_refl _, by omega, rfl⟩)
  have hhigh := (isInside_iff image.domain _).1
    (hfit { x := pt.x * pixel_size + (pixel_size - 1), y := pt.y * pixel_size + (pixel_size - 1) }
      ⟨pixel_size - 1, pixel_size - 1, by omega, by omega, by omega, by omega, rfl⟩)
  obtain ⟨r1, r2, r3, r4⟩ := hrep
  simp only at hlow hhigh
  have hf : ∀ x y : Nat, x < pixel_size.toNat → y < pixel_size.toNat →
      (pt.scale pixel_size).add { x := (x : Int), y := (y : Int) } =
        { x := pt.x * pixel_size + (x : Int), y := pt.y * pixel_size + (y : Int) } := by
    intro x y hx hy
    have hx2 : (x : Int) < pixel_size := by omega
    have hy2 : (y : Int) < pixel_size := by omega
    unfold Point2D.add Point2D.scale
    simp only
    generalize pt.x * pixel_size = a at *
    generalize pt.y * pixel_size = b at *
    rw [wrapCoordinate_of_range (z := a) (by omega) (by omega),
      wrapCoordinate_of_range (z := b) (by omega) (by omega),
      wrapCoordinate_of_range (z := a + x) (by omega) (by omega),
      wrapCoordinate_of_range (z := b + y) (by omega) (by omega)]
  have hblock : ∀ r, (∃ y x : Nat, y < pixel_size.toNat ∧ x < pixel_size.toNat ∧
      r = (pt.scale pixel_size).add { x := (x : Int), y := (y : Int) }) ↔
      InPixelBlock pt pixel_size r := by
    intro r
    constructor
    · rintro ⟨y, x, hy, hx, hr⟩
      rw [hf x y hx hy] at hr
      exact ⟨(x : Int), (y : Int), by omega, by omega, by omega, by omega, hr⟩
    · rintro ⟨x, y, hx0, hx1, hy0, hy1, hr⟩
      refine ⟨y.toNat, x.toNat, by omega, by omega, ?_⟩
      rw [hf x.toNat y.toNat (by omega) (by omega), Int.toNat_of_nonneg hx0,
        Int.toNat_of_nonneg hy0]
      exact hr
  obtain ⟨result, hres, hdom, hval⟩ := fillBlock_spec image val
    (fun x y => (pt.scale pixel_size).add { x := (x : Int), y := (y : Int) }) pixel_size.toNat
    (fun x y hx hy => hfit _ ((hblock _).1 ⟨y, x, hy, hx, rfl⟩))
  refine ⟨result, hres, hdom, ?_, ?_, ?_⟩
  · intro r hr
    exact (hval r).1 ((hblock r).2 hr)
  · intro r hr
    exact (hval r).2 (fun h => hr ((hblock r).1 h))
  · intro h1
    subst h1
    have h0 := hf 0 0 (by decide) (by decide)
    have hpt : ({ x := pt.x * 1 + ((0 : Nat) : Int), y := pt.y * 1 + ((0 : Nat) : Int) } : Point2D)
        = pt := by
      cases pt
      simp
    rw [hpt] at h0
    have h00 : (pt.scale 1).add { x := 0, y := 0 } = pt := by
      simpa using h0
    unfold writePixel
    simp [List.range_succ, h00]

theorem writePixel_block_witness :
    ∃ result, writePixel blankImage ⟨1, 2⟩ 7 2 = some result ∧
      result.value ⟨2, 4⟩ = 7 ∧ result.value ⟨3, 5⟩ = 7 ∧ result.value ⟨4, 5⟩ = 0 := by
  obtain ⟨result, h1, -, h3, h4, -⟩ := writePixel_block blankImage ⟨1, 2⟩ 7 2 (by decide)
    (by unfold Domain2D.Representable; decide)
    (by
      rintro r ⟨x, y, hx0, hx1, hy0, hy1, rfl⟩
      rw [isInside_iff]
      simp only [blankImage]
      omega)
  refine ⟨result, h1, h3 _ ⟨0, 0, by decide, by decide, by decide, by decide, rfl⟩,
    h3 _ ⟨1, 1, by decide, by decide, by decide, by decide, rfl⟩, ?_⟩
  rw [h4]
  · rfl
  · rintro ⟨x, y, hx0, hx1, hy0, hy1, hr⟩
    simp only [Point2D.mk.injEq] at hr
    omega

end Vol2HeightField
